import Mathlib

/-!
# Verification of the Entity Consolidation & Boundary Inference Engine

Shallow embedding of `src/backend/app/agents/org_boundary.py`
(class `OrgBoundaryAgent`) and proofs of the specification claims about it.

Modelling conventions:
* Python strings are Lean `String`s; the Python string methods used by the
  source (`strip`, `lower`, `upper`, `isalpha`, `in`) are re-implemented
  character by character over ASCII, exactly as the source relies on them.
* A pandas cell is an `Option String` (`none` models `NaN`); a row is an
  association list from column names to cells; a dataframe is its column
  list together with its row list.
* Python `dict`s that the source only ever extends are modelled as
  insertion-ordered association lists.
* Python's built-in `hash` (process-deterministic) is modelled by a concrete
  deterministic polynomial hash `pyHash`; no claim depends on its values,
  only on equal inputs hashing equally.
* `confidence` (0.92 / 0.85 in the source) is stored as an integer number of
  hundredths to keep the model in `Nat`.
-/

namespace OrgBoundary

/-- Python `chr(39)`, the apostrophe, used when rendering Python list reprs. -/
def apos : String := String.singleton (Char.ofNat 39)

/-- ASCII lower-casing of a single character, as Python `str.lower` acts on
the ASCII range (the only range the source's tables rely on). -/
def lowerChar (c : Char) : Char :=
  if 65 ≤ c.toNat ∧ c.toNat ≤ 90 then Char.ofNat (c.toNat + 32) else c

/-- ASCII upper-casing of a single character (Python `str.upper` on ASCII). -/
def upperChar (c : Char) : Char :=
  if 97 ≤ c.toNat ∧ c.toNat ≤ 122 then Char.ofNat (c.toNat - 32) else c

/-- Whitespace as stripped by Python `str.strip`. -/
def isSpaceChar (c : Char) : Bool :=
  c.toNat = 32 ∨ (9 ≤ c.toNat ∧ c.toNat ≤ 13)

/-- ASCII alphabetic test (Python `str.isalpha` restricted to ASCII). -/
def isAlphaChar (c : Char) : Bool :=
  (65 ≤ c.toNat ∧ c.toNat ≤ 90) ∨ (97 ≤ c.toNat ∧ c.toNat ≤ 122)

/-- ASCII upper-case letter test. -/
def isUpperChar (c : Char) : Bool := 65 ≤ c.toNat ∧ c.toNat ≤ 90

/-- Characters kept by the regex class `[a-z0-9]` (the source tokenizes and
normalizes only strings it has already lower-cased). -/
def isLowerAlnum (c : Char) : Bool :=
  (97 ≤ c.toNat ∧ c.toNat ≤ 122) ∨ (48 ≤ c.toNat ∧ c.toNat ≤ 57)

/-- Characters kept by the regex class `[a-z ]` used for the country retry. -/
def isLowerOrSpace (c : Char) : Bool :=
  (97 ≤ c.toNat ∧ c.toNat ≤ 122) ∨ c.toNat = 32

/-- Python `str.lower` (ASCII range). -/
def pyLower (s : String) : String := ⟨s.data.map lowerChar⟩

/-- Python `str.upper` (ASCII range). -/
def pyUpper (s : String) : String := ⟨s.data.map upperChar⟩

/-- Drop leading and trailing elements satisfying `p`. -/
def trimBy (p : Char → Bool) (l : List Char) : List Char :=
  ((l.dropWhile p).reverse.dropWhile p).reverse

/-- Python `str.strip()` (no argument: strips whitespace). -/
def pyStrip (s : String) : String := ⟨trimBy isSpaceChar s.data⟩

/-- Python `str.strip("-")`. -/
def stripDashes (s : String) : String := ⟨trimBy (fun c => c = Char.ofNat 45) s.data⟩

/-- Python `str.isalpha` (ASCII model). -/
def pyIsAlpha (s : String) : Bool := s.data.all isAlphaChar

/-- Does `needle` occur at the start of `hay`? -/
def startsWithChars : List Char → List Char → Bool
  | [], _ => true
  | _ :: _, [] => false
  | a :: as, b :: bs => a = b && startsWithChars as bs

/-- Python's substring test `needle in hay`. -/
def hasSubstr (hay needle : String) : Bool := go needle.data hay.data where
  go (n : List Char) : List Char → Bool
    | [] => n.isEmpty
    | c :: t => startsWithChars n (c :: t) || go n t

/-- Python truthiness of an optional string (`None` and `""` are falsy). -/
def truthy : Option String → Bool
  | none => false
  | some s => s ≠ ""

/-- Python `a or b` for an optional string `a` and a string default `b`. -/
def pyOr (a : Option String) (b : String) : String :=
  match a with
  | some s => if s = "" then b else s
  | none => b

/-- `str(x)` applied to an optional string (Python renders `None` as "None"). -/
def pyStr : Option String → String
  | none => "None"
  | some s => s

/-- `os.path.basename`: the component after the last slash. -/
def basename (p : String) : String :=
  ⟨(p.data.reverse.takeWhile (fun c => c ≠ Char.ofNat 47)).reverse⟩

/-- `re.sub(r"[^a-z0-9]+", "-", s)`: collapse every run of characters outside
`[a-z0-9]` into a single dash.  The flag records whether we are inside such a
run. -/
def collapseGo : Bool → List Char → List Char
  | _, [] => []
  | inRun, c :: rest =>
    if isLowerAlnum c then c :: collapseGo false rest
    else if inRun then collapseGo true rest
    else Char.ofNat 45 :: collapseGo true rest

/-- `re.sub(r"[^a-z0-9]+", "-", s)` on a whole string. -/
def collapseNonAlnum (s : String) : String := ⟨collapseGo false s.data⟩

/-- `re.split(r"[^a-z0-9]+", s)` with empty pieces dropped, i.e. the token
list used by `_detect_column`. -/
def tokensGo (cur : List Char) : List Char → List String
  | [] => if cur.isEmpty then [] else [⟨cur.reverse⟩]
  | c :: rest =>
    if isLowerAlnum c then tokensGo (c :: cur) rest
    else if cur.isEmpty then tokensGo [] rest
    else (⟨cur.reverse⟩ : String) :: tokensGo [] rest

/-- Tokenize a (lower-cased) header the way `_detect_column` does. -/
def tokensOf (s : String) : List String := tokensGo [] s.data

/-- `re.sub(r"[^a-z ]", "", s)`: keep only lower-case letters and spaces. -/
def keepLowerOrSpace (s : String) : String := ⟨s.data.filter isLowerOrSpace⟩

/-- Stand-in for Python's built-in `hash((normalized, len(name)))` in
`_make_entity_id`: deterministic within a process; modelled by a concrete
polynomial hash.  No claim depends on its values, only on determinism. -/
def pyHash (s : String) (n : Nat) : Nat :=
  (s.data.foldl (fun a c => (a * 31 + c.toNat) % 10000000019) 7) * 1000003 + n

/-- Zero-pad a decimal string to width `w` (Python's `:010d` format). -/
def padZeros (w : Nat) (s : String) : String :=
  if s.length ≥ w then s
  else ⟨List.replicate (w - s.length) (Char.ofNat 48) ++ s.data⟩

end OrgBoundary

namespace OrgBoundary

/-- `EMPTY_SENTINELS` from the source: strings treated as semantically empty. -/
def EMPTY_SENTINELS : List String :=
  ["", "nan", "none", "n/a", "na", "n.a", "null", "-", "—", "--", "tbd"]

/-- `ID_CANDIDATES` from the source. -/
def ID_CANDIDATES : List String :=
  ["facility id", "entity id", "site id", "company id", "org id",
   "organization id", "organisation id", "legal entity id", "location id",
   "identifier", "id"]

/-- `NAME_CANDIDATES` from the source. -/
def NAME_CANDIDATES : List String :=
  ["entity name", "facility name", "site name", "legal entity",
   "business unit", "company name", "division name", "organisation name",
   "organization name", "operating unit", "department", "name", "unit"]

/-- `PARENT_ID_CANDIDATES` from the source. -/
def PARENT_ID_CANDIDATES : List String :=
  ["parent id", "parent entity id", "parent facility id",
   "ultimate parent id", "upper id"]

/-- `PARENT_NAME_CANDIDATES` from the source. -/
def PARENT_NAME_CANDIDATES : List String :=
  ["parent", "parent entity", "parent company", "parent name", "reports to",
   "reports_to", "holding company"]

/-- `REGION_CANDIDATES` from the source. -/
def REGION_CANDIDATES : List String :=
  ["region", "geo", "geography", "market", "area", "cluster"]

/-- `COUNTRY_CANDIDATES` from the source. -/
def COUNTRY_CANDIDATES : List String :=
  ["country code", "country", "country/market", "jurisdiction", "location",
   "hq country", "nation"]

/-- `TYPE_CANDIDATES` from the source. -/
def TYPE_CANDIDATES : List String :=
  ["facility type", "entity type", "category", "site type", "business type",
   "org type", "operating type"]

/-- `BUSINESS_UNIT_CANDIDATES` from the source. -/
def BUSINESS_UNIT_CANDIDATES : List String :=
  ["business unit", "business-unit", "business_unit", "segment", "division",
   "line of business", "lob"]

/-- `COUNTRY_NORMALIZATION_MAP` from the source, in source order (Python dict
lookup is modelled by first-match association-list lookup; the keys are
pairwise distinct in the source). -/
def COUNTRY_NORMALIZATION_MAP : List (String × String) :=
  [("albania", "AL"), ("algeria", "DZ"), ("argentina", "AR"),
   ("armenia", "AM"), ("australia", "AU"), ("azerbaijan", "AZ"),
   ("bahamas", "BS"), ("bangladesh", "BD"), ("barbados", "BB"),
   ("belarus", "BY"), ("belgium", "BE"), ("belize", "BZ"), ("benin", "BJ"),
   ("bhutan", "BT"), ("bolivia", "BO"), ("bosnia and herzegovina", "BA"),
   ("botswana", "BW"), ("brazil", "BR"),
   ("british indian ocean territory (chagos archipelago)", "IO"),
   ("british indian ocean territory", "IO"), ("brunei darussalam", "BN"),
   ("bulgaria", "BG"), ("burundi", "BI"), ("cameroon", "CM"),
   ("cape verde", "CV"), ("cayman islands", "KY"),
   ("central african republic", "CF"), ("chad", "TD"),
   ("christmas island", "CX"), ("colombia", "CO"), ("comoros", "KM"),
   ("congo", "CG"), ("costa rica", "CR"), ("croatia", "HR"),
   ("cyprus", "CY"), ("dominica", "DM"), ("dominican republic", "DO"),
   ("ecuador", "EC"), ("egypt", "EG"), ("el salvador", "SV"),
   ("eritrea", "ER"), ("estonia", "EE"), ("ethiopia", "ET"),
   ("faroe islands", "FO"), ("fiji", "FJ"), ("finland", "FI"),
   ("france", "FR"), ("french guiana", "GF"), ("french polynesia", "PF"),
   ("gabon", "GA"), ("gibraltar", "GI"), ("greenland", "GL"),
   ("grenada", "GD"), ("guadeloupe", "GP"), ("guatemala", "GT"),
   ("guinea", "GN"), ("guyana", "GY"), ("haiti", "HT"),
   ("holy see (vatican city state)", "VA"), ("holy see", "VA"),
   ("vatican city", "VA"), ("honduras", "HN"), ("india", "IN"),
   ("ireland", "IE"), ("isle of man", "IM"), ("italy", "IT"),
   ("jamaica", "JM"), ("japan", "JP"), ("jersey", "JE"), ("jordan", "JO"),
   ("korea", "KR"), ("kuwait", "KW"), ("kyrgyz republic", "KG"),
   ("kyrgyzstan", "KG"), ("lao people" ++ apos ++ "s democratic republic", "LA"),
   ("laos", "LA"), ("lebanon", "LB"), ("lesotho", "LS"),
   ("libyan arab jamahiriya", "LY"), ("libya", "LY"), ("luxembourg", "LU"),
   ("madagascar", "MG"), ("malawi", "MW"), ("marshall islands", "MH"),
   ("martinique", "MQ"), ("mauritius", "MU"), ("mexico", "MX"),
   ("monaco", "MC"), ("mongolia", "MN"), ("montserrat", "MS"),
   ("myanmar", "MM"), ("namibia", "NA"), ("niger", "NE"), ("nigeria", "NG"),
   ("northern mariana islands", "MP"), ("norway", "NO"), ("oman", "OM"),
   ("pakistan", "PK"), ("panama", "PA"), ("philippines", "PH"),
   ("portugal", "PT"), ("puerto rico", "PR"), ("reunion", "RE"),
   ("réunion", "RE"), ("romania", "RO"), ("russian federation", "RU"),
   ("russia", "RU"), ("rwanda", "RW"), ("saint barthelemy", "BL"),
   ("saint barthélemy", "BL"), ("saint helena", "SH"),
   ("saint kitts and nevis", "KN"), ("saint pierre and miquelon", "PM"),
   ("samoa", "WS"), ("san marino", "SM"), ("sao tome and principe", "ST"),
   ("são tomé and príncipe", "ST"), ("saudi arabia", "SA"),
   ("senegal", "SN"), ("seychelles", "SC"), ("singapore", "SG"),
   ("slovakia (slovak republic)", "SK"), ("slovakia", "SK"),
   ("slovenia", "SI"), ("somalia", "SO"),
   ("svalbard & jan mayen islands", "SJ"),
   ("svalbard and jan mayen islands", "SJ"), ("swaziland", "SZ"),
   ("eswatini", "SZ"), ("sweden", "SE"), ("switzerland", "CH"),
   ("syrian arab republic", "SY"), ("syria", "SY"), ("taiwan", "TW"),
   ("tanzania", "TZ"), ("timor-leste", "TL"), ("east timor", "TL"),
   ("togo", "TG"), ("tokelau", "TK"), ("turkey", "TR"), ("tuvalu", "TV"),
   ("uganda", "UG"), ("united arab emirates", "AE"), ("uae", "AE"),
   ("united states minor outlying islands", "UM"),
   ("united states of america", "US"), ("united states", "US"),
   ("usa", "US"), ("us", "US"), ("united kingdom", "GB"), ("uk", "GB"),
   ("great britain", "GB"), ("vanuatu", "VU"), ("venezuela", "VE"),
   ("vietnam", "VN"), ("yemen", "YE"), ("zambia", "ZM"), ("zimbabwe", "ZW")]

/-- A pandas row: association list from column names to cells (`none` = NaN). -/
abbrev Row := List (String × Option String)

/-- A parsed document as consumed by `consolidate` (`dataframe` carries the
column list and the row list; `none` models an absent/None dataframe). -/
structure ParsedDoc where
  status : Option String
  path : Option String
  sheetName : Option String
  errorMsg : Option String
  dataframe : Option (List String × List Row)
deriving Repr, DecidableEq

/-- A canonical entity record, mirroring the dict built in `consolidate`. -/
structure Entity where
  entity_id : String
  entity_identifier : Option String
  name : String
  display_name : String
  type_ : String
  region : Option String
  country_raw : Option String
  country_code : Option String
  business_unit : Option String
  division : Option String
  facility_type : Option String
  parent_id : Option String
  parent_name : Option String
  source_file : String
  source_sheet : String
  source_row : Nat
  confidence : Nat
  is_user_verified : Bool
deriving Repr, DecidableEq, Inhabited

/-- A data-quality issue record as built by `_make_issue` (absent keys are
`none`). -/
structure Issue where
  code : String
  message : String
  severity : String
  entity : Option String
  field : Option String
  source_file : Option String
  source_sheet : Option String
  source_row : Option Nat
  recommendation : Option String
  details : Option (List String)
deriving Repr, DecidableEq, Inhabited

/-- A boundary decision record built by `_propose_boundary`. -/
structure BoundaryDecision where
  entity_id : String
  name : String
  in_boundary : Bool
  reason : String
  parent_id : Option String
  parent_name : Option String
  country_code : Option String
  region : Option String
deriving Repr, DecidableEq

/-- A hierarchy edge record built by `_propose_boundary`. -/
structure HierarchyEdge where
  entity_id : String
  parent_id : Option String
  parent_name : Option String
  relationship : String
deriving Repr, DecidableEq

/-- `_make_issue`: optional keys are only set when the passed value is truthy
(`source_row` is kept whenever it is not `None`, matching the source). -/
def mkIssue (code message severity : String) (entity field source_file
    source_sheet : Option String) (source_row : Option Nat)
    (recommendation : Option String) (details : Option (List String)) : Issue :=
  { code := code
    message := message
    severity := severity
    entity := if truthy entity then entity else none
    field := if truthy field then field else none
    source_file := if truthy source_file then source_file else none
    source_sheet := if truthy source_sheet then source_sheet else none
    source_row := source_row
    recommendation := if truthy recommendation then recommendation else none
    details := match details with
               | some l => if l.isEmpty then none else some l
               | none => none }

end OrgBoundary

namespace OrgBoundary

/-- Scan the (original, lowered) column pairs for the first column whose token
set contains every candidate token (`_detect_column`'s inner loop). -/
def findTokenMatch (candToks : List String) : List String → List String → Option String
  | [], _ => none
  | _, [] => none
  | c :: cs, l :: ls =>
    if candToks.all (fun t => (tokensOf l).contains t) then some c
    else findTokenMatch candToks cs ls

/-- `_detect_column`'s outer loop over candidates, in priority order. -/
def detectColumnGo (columns lowered : List String) : List String → Option String
  | [] => none
  | cand :: rest =>
    match findTokenMatch (tokensOf cand) columns lowered with
    | some c => some c
    | none => detectColumnGo columns lowered rest

/-- `_detect_column`: first column (in header order) whose token set is a
superset of a candidate's tokens, trying candidates most-specific first. -/
def detectColumn (columns : List String) (candidates : List String) : Option String :=
  detectColumnGo columns (columns.map (fun c => pyLower (pyStrip c))) candidates

/-- One priority pass of `_detect_name_column`: first column whose lower-cased
header contains every token of the priority pair as a substring. -/
def findSubstrMatch (priority : List String) : List String → List String → Option String
  | [], _ => none
  | _, [] => none
  | c :: cs, l :: ls =>
    if priority.all (fun t => hasSubstr l t) then some c
    else findSubstrMatch priority cs ls

/-- The compound priority pairs of `_detect_name_column`, in order. -/
def NAME_PRIORITIES : List (List String) :=
  [["entity", "name"], ["facility", "name"], ["site", "name"], ["legal", "entity"]]

/-- `_detect_name_column`: try the compound priority pairs, then fall back to
the generic candidate list. -/
def detectNameColumn (columns : List String) : Option String :=
  go NAME_PRIORITIES
where
  go : List (List String) → Option String
    | [] => detectColumn columns NAME_CANDIDATES
    | pr :: rest =>
      match findSubstrMatch pr columns (columns.map pyLower) with
      | some c => some c
      | none => go rest

/-- `_fetch_value`: `None` for a falsy/absent column, a NaN cell, or a
sentinel value; otherwise the stripped cell text. -/
def fetchValue (row : Row) (column : Option String) : Option String :=
  match column with
  | none => none
  | some c =>
    if c = "" then none
    else
      match row.lookup c with
      | none => none
      | some none => none
      | some (some v) =>
        let text := pyStrip v
        if pyLower text ∈ EMPTY_SENTINELS then none else some text

/-- `_detect_division`: scan columns whose lower-cased header contains one of
the division keywords, returning the first non-empty value. -/
def detectDivision (columns : List String) (row : Row) : Option String :=
  go (columns.filter (fun col =>
    ["division", "dept", "department", "business line"].any
      (fun tok => hasSubstr (pyLower col) tok)))
where
  go : List String → Option String
    | [] => none
    | c :: cs =>
      match fetchValue row (some c) with
      | some v => some v
      | none => go cs

/-- `_make_entity_id`: a synthetic `ent-` identifier from the normalized name
and the raw name length. -/
def mkEntityId (name : String) : String :=
  "ent-" ++ padZeros 10 (toString ((pyHash
    (stripDashes (collapseNonAlnum (pyLower (pyStrip name)))) name.length) % 10000000000))

/-- `_derive_display_name`: append bracketed business-unit/division qualifiers
when they are not already substrings of the name. -/
def deriveDisplayName (name : String) (business_unit division : Option String) : String :=
  let p1 : List String :=
    match business_unit with
    | some bu =>
      if bu ≠ "" ∧ ¬ (hasSubstr (pyLower name) (pyLower bu)) then ["[" ++ bu ++ "]"] else []
    | none => []
  let p2 : List String :=
    match division with
    | some d =>
      if d ≠ "" ∧ ¬ (hasSubstr (pyLower name) (pyLower d)) then ["[" ++ d ++ "]"] else []
    | none => []
  String.intercalate " " (name :: (p1 ++ p2))

/-- `_infer_type_from_name`: keyword-based facility-type inference. -/
def inferTypeFromName (name : String) : Option String :=
  let lowered := pyLower name
  if ["manufacturing", "plant", "factory"].any (fun t => hasSubstr lowered t) then
    some "Manufacturing"
  else if ["office", "hq", "headquarters"].any (fun t => hasSubstr lowered t) then
    some "Office"
  else if hasSubstr lowered "distribution" then some "Distribution"
  else none

/-- `_normalize_country`: `(iso_code, unmapped_raw)` per the source's rules. -/
def normalizeCountry : Option String → Option String × Option String
  | none => (none, none)
  | some value =>
    if value = "" then (none, none)
    else
      let val := pyStrip value
      if val = "" then (none, none)
      else if val.length = 2 ∧ pyIsAlpha val then (some (pyUpper val), none)
      else
        let valLower := pyLower val
        match COUNTRY_NORMALIZATION_MAP.lookup valLower with
        | some code => (some code, none)
        | none =>
          let cleaned := pyStrip (keepLowerOrSpace valLower)
          match COUNTRY_NORMALIZATION_MAP.lookup cleaned with
          | some code => (some code, none)
          | none => (none, some val)

end OrgBoundary

namespace OrgBoundary

/-- The per-row contributions of one iteration of the row loop in
`consolidate` (a skipped row contributes nothing; see `extractRow`). -/
structure RowOut where
  entity : Entity
  missId : Option (String × Nat)
  unknownPair : Option (String × String)
  nonIsoPair : Option (String × String)
  missRegion : Option String
  missType : Option String
deriving Repr, DecidableEq

/-- The detected column roles of one document. -/
structure Cols where
  idCol : Option String
  nameCol : String
  parentIdCol : Option String
  parentNameCol : Option String
  regionCol : Option String
  countryCol : Option String
  typeCol : Option String
  businessUnitCol : Option String
deriving Repr, DecidableEq

/-- The body of the row loop of `consolidate` (lines 338-388 of the source):
build the entity record and the per-row data-quality contributions, or skip
the row when its name is falsy. -/
def extractRow (columns : List String) (cols : Cols) (base sheet : String)
    (idx : Nat) (row : Row) : Option RowOut :=
  match fetchValue row (some cols.nameCol) with
  | none => none
  | some entityName =>
    let entityIdentifier := fetchValue row cols.idCol
    let parentIdentifier := fetchValue row cols.parentIdCol
    let parentName := fetchValue row cols.parentNameCol
    let region := fetchValue row cols.regionCol
    let countryRaw := fetchValue row cols.countryCol
    let entityType := fetchValue row cols.typeCol
    let businessUnit := fetchValue row cols.businessUnitCol
    let division := detectDivision columns row
    let facilityType :=
      if truthy entityType then entityType else inferTypeFromName entityName
    let cc := normalizeCountry countryRaw
    let entityId :=
      if truthy entityIdentifier then pyOr entityIdentifier ""
      else mkEntityId entityName
    some
      { entity :=
          { entity_id := entityId
            entity_identifier := entityIdentifier
            name := entityName
            display_name := deriveDisplayName entityName businessUnit division
            type_ := pyOr facilityType "Unknown"
            region := region
            country_raw := countryRaw
            country_code := cc.1
            business_unit := businessUnit
            division := division
            facility_type := facilityType
            parent_id := parentIdentifier
            parent_name := parentName
            source_file := base
            source_sheet := sheet
            source_row := idx + 2
            confidence := if truthy entityIdentifier then 92 else 85
            is_user_verified := false }
        missId := if truthy entityIdentifier then none else some (entityName, idx + 2)
        unknownPair :=
          match cc.2 with
          | some u => if u = "" then none else some (u, entityName)
          | none => none
        nonIsoPair :=
          match cc.2 with
          | some u =>
            if u = "" then
              if truthy cc.1 ∧ truthy countryRaw ∧
                  pyUpper (pyOr countryRaw "") ≠ pyOr cc.1 "" then
                some (pyOr countryRaw "", entityName)
              else none
            else none
          | none =>
            if truthy cc.1 ∧ truthy countryRaw ∧
                pyUpper (pyOr countryRaw "") ≠ pyOr cc.1 "" then
              some (pyOr countryRaw "", entityName)
            else none
        missRegion := if truthy region then none else some entityName
        missType := if truthy facilityType then none else some entityName }

end OrgBoundary

namespace OrgBoundary

/-- The accumulator rows of `consolidate` that one document (or a batch of
documents) contributes, each in encounter order. -/
structure DocOut where
  issues : List Issue
  entities : List Entity
  missingIds : List (String × Nat)
  unknown : List (String × String)
  nonIso : List (String × String)
  missingRegions : List String
  missingTypes : List String
deriving Repr, DecidableEq

/-- The empty contribution. -/
def DocOut.empty : DocOut :=
  { issues := [], entities := [], missingIds := [], unknown := [],
    nonIso := [], missingRegions := [], missingTypes := [] }

/-- Componentwise concatenation of contributions, preserving order. -/
def DocOut.append (a b : DocOut) : DocOut :=
  { issues := a.issues ++ b.issues
    entities := a.entities ++ b.entities
    missingIds := a.missingIds ++ b.missingIds
    unknown := a.unknown ++ b.unknown
    nonIso := a.nonIso ++ b.nonIso
    missingRegions := a.missingRegions ++ b.missingRegions
    missingTypes := a.missingTypes ++ b.missingTypes }

/-- A single-issue contribution (for the three document-level failures). -/
def DocOut.ofIssue (i : Issue) : DocOut :=
  { DocOut.empty with issues := [i] }

/-- The row loop of `consolidate` over an enumerated row list. -/
def rowOuts (columns : List String) (cols : Cols) (base sheet : String)
    (rows : List Row) : List RowOut :=
  rows.enum.filterMap (fun p => extractRow columns cols base sheet p.1 p.2)

/-- Collect one document's contributions from its extracted rows. -/
def docOutOfRows (outs : List RowOut) : DocOut :=
  { issues := []
    entities := outs.map (·.entity)
    missingIds := outs.filterMap (·.missId)
    unknown := outs.filterMap (·.unknownPair)
    nonIso := outs.filterMap (·.nonIsoPair)
    missingRegions := outs.filterMap (·.missRegion)
    missingTypes := outs.filterMap (·.missType) }

/-- The per-document part of `consolidate` (lines 292-388 of the source):
document-level failures become issues, usable documents contribute entity
records and per-row data-quality observations. -/
def processDoc (doc : ParsedDoc) : DocOut :=
  let path := pyStr doc.path
  let base := basename path
  let sheet := pyOr doc.sheetName "Sheet1"
  if doc.status ≠ some "ok" then
    DocOut.ofIssue (mkIssue "input_unusable"
      (pyOr doc.errorMsg "Input could not be parsed") "error"
      none none (some base) (some sheet) none
      (some "Re-export the sheet with a single header row and no merged cells")
      none)
  else
    match doc.dataframe with
    | none =>
      DocOut.ofIssue (mkIssue "empty_sheet"
        (sheet ++ " in " ++ base ++ " contained no tabular data") "warning"
        none none (some base) (some sheet) none none none)
    | some (columns, rows) =>
      if rows.isEmpty ∨ columns.isEmpty then
        DocOut.ofIssue (mkIssue "empty_sheet"
          (sheet ++ " in " ++ base ++ " contained no tabular data") "warning"
          none none (some base) (some sheet) none none none)
      else
        match detectNameColumn columns with
        | none =>
          DocOut.ofIssue (mkIssue "missing_name_column"
            ("Could not detect an entity name column in " ++ sheet ++ " (" ++
              base ++ ")") "error"
            none none (some base) (some sheet) none
            (some "Add a column such as 'Facility Name' or 'Entity Name'")
            none)
        | some nameCol =>
          let cols : Cols :=
            { idCol := detectColumn columns ID_CANDIDATES
              nameCol := nameCol
              parentIdCol := detectColumn columns PARENT_ID_CANDIDATES
              parentNameCol := detectColumn columns PARENT_NAME_CANDIDATES
              regionCol := detectColumn columns REGION_CANDIDATES
              countryCol := detectColumn columns COUNTRY_CANDIDATES
              typeCol := detectColumn columns TYPE_CANDIDATES
              businessUnitCol := detectColumn columns BUSINESS_UNIT_CANDIDATES }
          docOutOfRows (rowOuts columns cols base sheet rows)

/-- All documents' contributions, in input order. -/
def extractAll (docs : List ParsedDoc) : DocOut :=
  (docs.map processDoc).foldr DocOut.append DocOut.empty

/-- The deduplication key: lower-cased, whitespace-stripped `entity_id`. -/
def dedupKey (e : Entity) : String := pyLower (pyStrip e.entity_id)

/-- Pass one of deduplication (lines 390-396 of the source): keep the first
record of each key, and record `(entity_id, source_file)` of every later
occurrence (the `duplicate_ids` dict rows, in encounter order). -/
def dedupGo (seen : List String) : List Entity → List Entity × List (String × String)
  | [] => ([], [])
  | e :: rest =>
    let k := dedupKey e
    if k ∈ seen then
      let r := dedupGo seen rest
      (r.1, (e.entity_id, e.source_file) :: r.2)
    else
      let r := dedupGo (k :: seen) rest
      (e :: r.1, r.2)

/-- The name key used by pass two: lower-cased, stripped `name`. -/
def nameKey (e : Entity) : String := pyLower (pyStrip e.name)

/-- Pass two (lines 398-404): informational only — record
`(name, source_file)` of repeated names among the survivors, removing
nothing. -/
def namePassGo (seen : List String) : List Entity → List (String × String)
  | [] => []
  | e :: rest =>
    let k := nameKey e
    if k ∈ seen then (e.name, e.source_file) :: namePassGo seen rest
    else namePassGo (k :: seen) rest

end OrgBoundary

namespace OrgBoundary

/-- `defaultdict(list)`-style append into an insertion-ordered multimap. -/
def dictAppend (d : List (String × List String)) (k v : String) :
    List (String × List String) :=
  match d with
  | [] => [(k, [v])]
  | (k2, vs) :: rest =>
    if k2 = k then (k2, vs ++ [v]) :: rest else (k2, vs) :: dictAppend rest k v

/-- Build the multimap from its append events, in order (this is exactly how
`duplicate_ids`, `duplicate_names`, `unknown_countries` and
`non_iso_countries` are populated in the source). -/
def buildMultiDict (prs : List (String × String)) : List (String × List String) :=
  prs.foldl (fun d pr => dictAppend d pr.1 pr.2) []

/-- Look up a key in the multimap (empty list when absent, as a
`defaultdict(list)` reports). -/
def multiLookup (d : List (String × List String)) (k : String) : List String :=
  match d.lookup k with
  | some vs => vs
  | none => []

/-- Ascending insertion of a string into a sorted list. -/
def insertSorted (s : String) : List String → List String
  | [] => [s]
  | t :: ts => if decide (s ≤ t) then s :: t :: ts else t :: insertSorted s ts

/-- Python `sorted(set(files))`: the distinct elements in ascending order. -/
def sortedSet (l : List String) : List String :=
  (l.eraseDups).foldr insertSorted []

/-- Python `repr` of a list of (well-behaved) strings: `['a', 'b']`. -/
def pyListRepr (l : List String) : String :=
  "[" ++ String.intercalate ", " (l.map (fun s => apos ++ s ++ apos)) ++ "]"

/-- The lookup keys `by_id` of `_propose_boundary` (only membership is ever
used, so the key list suffices). -/
def idsOf (entities : List Entity) : List String := entities.map (·.entity_id)

/-- The lookup keys `by_name` of `_propose_boundary`. -/
def namesOf (entities : List Entity) : List String := entities.map nameKey

/-- The `missing_parent` issue one entity contributes in `_propose_boundary`
(or `none` when its parent reference is absent or resolves). -/
def issueOf (ids names : List String) (e : Entity) : Option Issue :=
  if truthy e.parent_id then
    if pyOr e.parent_id "" ∈ ids then none
    else some (mkIssue "missing_parent"
      ("Parent reference for " ++ e.name ++ " could not be matched") "warning"
      (some e.name) (some "parent") (some e.source_file) (some e.source_sheet)
      (some e.source_row)
      (some "Provide a matching parent row or confirm the entity is standalone")
      (some [pyOr e.parent_id ""]))
  else if truthy e.parent_name then
    if pyLower (pyStrip (pyOr e.parent_name "")) ∈ names then none
    else some (mkIssue "missing_parent"
      ("Parent reference for " ++ e.name ++ " could not be matched") "warning"
      (some e.name) (some "parent") (some e.source_file) (some e.source_sheet)
      (some e.source_row)
      (some "Provide a matching parent row or confirm the entity is standalone")
      (some [pyOr e.parent_name ""]))
  else none

/-- The boundary decision one entity contributes in `_propose_boundary`. -/
def boundaryOf (e : Entity) : BoundaryDecision :=
  { entity_id := e.entity_id
    name := e.name
    in_boundary := true
    reason := "Included by default; refine with control & ownership inputs"
    parent_id := e.parent_id
    parent_name := e.parent_name
    country_code := e.country_code
    region := e.region }

/-- The hierarchy edge one entity contributes in `_propose_boundary`. -/
def edgeOf (e : Entity) : HierarchyEdge :=
  { entity_id := e.entity_id
    parent_id := e.parent_id
    parent_name := e.parent_name
    relationship :=
      if truthy e.parent_id || truthy e.parent_name then "reports_to" else "root" }

/-- `_propose_boundary`: returns `(boundary, issues, edges)`. -/
def proposeBoundary (entities : List Entity) :
    List BoundaryDecision × List Issue × List HierarchyEdge :=
  let ids := idsOf entities
  let names := namesOf entities
  (entities.map boundaryOf, entities.filterMap (issueOf ids names),
   entities.map edgeOf)

/-- `_compile_quality_issues`: the roster-level aggregate issues, in source
order, each emitted only when its accumulator is non-empty. -/
def compileQualityIssues (duplicate_ids duplicate_names : List (String × List String))
    (missing_identifiers : List (String × Nat))
    (unknown_countries non_iso_countries : List (String × List String))
    (missing_regions missing_types : List String) : List Issue :=
  (if duplicate_ids.isEmpty then [] else
    [mkIssue "duplicate_entity_id"
      ("Detected " ++ toString duplicate_ids.length ++
        " duplicate entity identifiers across uploads") "warning"
      none none none none none
      (some "Ensure each facility or legal entity has a unique identifier before aggregation")
      (some ((duplicate_ids.take 5).map
        (fun p => p.1 ++ ": " ++ pyListRepr (sortedSet p.2))))]) ++
  (if duplicate_names.isEmpty then [] else
    [mkIssue "duplicate_entity_name"
      (toString duplicate_names.length ++ " entity names are repeated across files")
      "info" none none none none none
      (some "Clarify whether repeated names represent distinct sites or duplicate entries")
      (some ((duplicate_names.take 5).map
        (fun p => p.1 ++ ": " ++ pyListRepr (sortedSet p.2))))]) ++
  (if missing_identifiers.isEmpty then [] else
    [mkIssue "missing_entity_identifier"
      (toString missing_identifiers.length ++
        " rows are missing an explicit facility/entity identifier") "warning"
      none none none none none
      (some "Provide a stable ID column (e.g., Facility ID) to support traceability")
      (some ((missing_identifiers.take 8).map
        (fun p => p.1 ++ " (row " ++ toString p.2 ++ ")")))]) ++
  (if unknown_countries.isEmpty then [] else
    [mkIssue "country_normalization"
      (toString ((unknown_countries.map (fun p => p.2.length)).sum) ++
        " facilities use country values that could not be mapped to ISO-3166")
      "warning" none none none none none
      (some "Standardize country inputs (e.g., use ISO alpha-2 codes or consistent names)")
      (some ((unknown_countries.map (·.1)).take 8))]) ++
  (if non_iso_countries.isEmpty then [] else
    [mkIssue "country_standardization"
      (toString ((non_iso_countries.map (fun p => p.2.length)).sum) ++
        " facilities use verbose country labels; ISO-2 equivalents inferred")
      "info" none none none none none
      (some "Store ISO-2 country codes alongside descriptive labels to prevent downstream ambiguity")
      (some ((non_iso_countries.map (·.1)).take 8))]) ++
  (if missing_regions.isEmpty then [] else
    [mkIssue "missing_region"
      (toString missing_regions.length ++ " facilities have no region assigned")
      "info" none none none none none
      (some "Populate regional groupings (e.g., AMER, EMEA) to support roll-ups")
      (some (missing_regions.take 8))]) ++
  (if missing_types.isEmpty then [] else
    [mkIssue "missing_facility_type"
      (toString missing_types.length ++
        " facilities are missing facility type information") "info"
      none none none none none
      (some "Provide facility type (Manufacturing, Distribution, Office, etc.) for boundary governance")
      (some (missing_types.take 8))])

/-- The structured result of `consolidate` (the narrative string, the static
recommendation list and the export table projections are not modelled: no
claim concerns them and they feed no other output). -/
structure ConsolidateResult where
  entities : List Entity
  boundary : List BoundaryDecision
  hierarchy : List HierarchyEdge
  issues : List Issue
deriving Repr, DecidableEq

/-- `consolidate` (lines 279-457 of the source): per-document extraction,
two-pass deduplication, boundary/hierarchy proposal and issue aggregation.
The embedding is a total Lean function: every operation of the source is
defined on the whole modelled input space, so the model returns a result for
every input (the source's "never raises" policy). -/
def consolidate (docs : List ParsedDoc) : ConsolidateResult :=
  let o := extractAll docs
  let ded := dedupGo [] o.entities
  let survivors := ded.1
  let dupNamePairs := namePassGo [] survivors
  let pb := proposeBoundary survivors
  let qIssues := compileQualityIssues (buildMultiDict ded.2)
    (buildMultiDict dupNamePairs) o.missingIds (buildMultiDict o.unknown)
    (buildMultiDict o.nonIso) o.missingRegions o.missingTypes
  { entities := survivors
    boundary := pb.1
    hierarchy := pb.2.2
    issues := o.issues ++ pb.2.1 ++ qIssues }

end OrgBoundary

namespace OrgBoundary

theorem toNat_ofNat_lt (n : Nat) (h : n < 55296) : (Char.ofNat n).toNat = n := by
  have hv : Nat.isValidChar n := Or.inl h
  unfold Char.ofNat
  rw [dif_pos hv]
  unfold Char.ofNatAux
  simp [Char.toNat, UInt32.toNat]

theorem charEq_of_toNat {c d : Char} (h : c.toNat = d.toNat) : c = d :=
  Char.ext (UInt32.ext h)

theorem toNat_lowerChar (c : Char) : (lowerChar c).toNat =
    if 65 ≤ c.toNat ∧ c.toNat ≤ 90 then c.toNat + 32 else c.toNat := by
  by_cases h : 65 ≤ c.toNat ∧ c.toNat ≤ 90
  · rw [if_pos h]
    unfold lowerChar
    rw [if_pos h]
    exact toNat_ofNat_lt _ (by omega)
  · rw [if_neg h]
    unfold lowerChar
    rw [if_neg h]

theorem toNat_upperChar (c : Char) : (upperChar c).toNat =
    if 97 ≤ c.toNat ∧ c.toNat ≤ 122 then c.toNat - 32 else c.toNat := by
  by_cases h : 97 ≤ c.toNat ∧ c.toNat ≤ 122
  · rw [if_pos h]
    unfold upperChar
    rw [if_pos h]
    exact toNat_ofNat_lt _ (by omega)
  · rw [if_neg h]
    unfold upperChar
    rw [if_neg h]

theorem isSpaceChar_lowerChar (c : Char) :
    isSpaceChar (lowerChar c) = isSpaceChar c := by
  have ht := toNat_lowerChar c
  by_cases h : 65 ≤ c.toNat ∧ c.toNat ≤ 90
  · rw [if_pos h] at ht
    simp only [isSpaceChar, ht, decide_eq_decide]
    omega
  · rw [if_neg h] at ht
    simp only [isSpaceChar, ht]

theorem isAlphaChar_lowerChar (c : Char) :
    isAlphaChar (lowerChar c) = isAlphaChar c := by
  have ht := toNat_lowerChar c
  by_cases h : 65 ≤ c.toNat ∧ c.toNat ≤ 90
  · rw [if_pos h] at ht
    simp only [isAlphaChar, ht, decide_eq_decide]
    omega
  · rw [if_neg h] at ht
    simp only [isAlphaChar, ht]

theorem upperChar_of_lowerChar_eq {c d : Char} (h : lowerChar c = lowerChar d) :
    upperChar c = upperChar d := by
  have ht : (lowerChar c).toNat = (lowerChar d).toNat := by rw [h]
  rw [toNat_lowerChar, toNat_lowerChar] at ht
  apply charEq_of_toNat
  rw [toNat_upperChar, toNat_upperChar]
  by_cases h1 : 65 ≤ c.toNat ∧ c.toNat ≤ 90 <;>
    by_cases h2 : 65 ≤ d.toNat ∧ d.toNat ≤ 90
  · rw [if_pos h1, if_pos h2] at ht
    rw [if_neg (by omega), if_neg (by omega)]
    omega
  · rw [if_pos h1, if_neg h2] at ht
    rw [if_neg (by omega), if_pos (by omega)]
    omega
  · rw [if_neg h1, if_pos h2] at ht
    rw [if_pos (by omega), if_neg (by omega)]
    omega
  · rw [if_neg h1, if_neg h2] at ht
    rw [ht]

theorem upperChar_eq_self_of_upper {c : Char} (h : isUpperChar c = true) :
    upperChar c = c := by
  simp only [isUpperChar, decide_eq_true_eq] at h
  unfold upperChar
  rw [if_neg (by omega)]

theorem isAlphaChar_of_upper {c : Char} (h : isUpperChar c = true) :
    isAlphaChar c = true := by
  simp only [isUpperChar, decide_eq_true_eq] at h
  simp only [isAlphaChar, decide_eq_true_eq]
  omega

theorem not_isSpaceChar_of_alpha {c : Char} (h : isAlphaChar c = true) :
    isSpaceChar c = false := by
  simp only [isAlphaChar, decide_eq_true_eq] at h
  simp only [isSpaceChar, decide_eq_false_iff_not]
  omega

end OrgBoundary

namespace OrgBoundary

theorem dropWhile_eq_self_of_all {p : Char → Bool} {l : List Char}
    (h : ∀ c ∈ l, p c = false) : l.dropWhile p = l := by
  cases l with
  | nil => rfl
  | cons a t =>
    rw [List.dropWhile_cons, if_neg]
    simp [h a (List.mem_cons_self a t)]

theorem trimBy_eq_self_of_all {p : Char → Bool} {l : List Char}
    (h : ∀ c ∈ l, p c = false) : trimBy p l = l := by
  unfold trimBy
  rw [dropWhile_eq_self_of_all h, dropWhile_eq_self_of_all, List.reverse_reverse]
  intro c hc
  exact h c (List.mem_reverse.mp hc)

theorem trimBy_map {f : Char → Char} {p : Char → Bool}
    (hp : ∀ c, p (f c) = p c) (l : List Char) :
    (trimBy p l).map f = trimBy p (l.map f) := by
  have hpf : (p ∘ f) = p := funext hp
  simp only [trimBy, List.dropWhile_map, hpf, ← List.map_reverse]

theorem pyLower_pyStrip (s : String) : pyLower (pyStrip s) = pyStrip (pyLower s) := by
  simp only [pyLower, pyStrip]
  exact congrArg String.mk (trimBy_map isSpaceChar_lowerChar s.data)

theorem pyStrip_eq_self_of_alpha {s : String} (h : pyIsAlpha s = true) :
    pyStrip s = s := by
  have : trimBy isSpaceChar s.data = s.data := by
    apply trimBy_eq_self_of_all
    intro c hc
    simp only [pyIsAlpha, List.all_eq_true] at h
    exact not_isSpaceChar_of_alpha (h c hc)
  simp only [pyStrip, this]

theorem pyUpper_eq_self_of_upper {s : String} (h : s.data.all isUpperChar = true) :
    pyUpper s = s := by
  simp only [List.all_eq_true] at h
  have : s.data.map upperChar = s.data := by
    rw [List.map_congr_left (fun a ha => upperChar_eq_self_of_upper (h a ha))]
    exact List.map_id s.data
  simp only [pyUpper, this]

theorem pyIsAlpha_of_upper {s : String} (h : s.data.all isUpperChar = true) :
    pyIsAlpha s = true := by
  simp only [List.all_eq_true] at h
  simp only [pyIsAlpha, List.all_eq_true]
  exact fun c hc => isAlphaChar_of_upper (h c hc)

theorem length_pyLower (s : String) : (pyLower s).length = s.length := by
  show (s.data.map lowerChar).length = s.data.length
  exact List.length_map s.data lowerChar

theorem length_eq_of_pyLower_eq {s t : String} (h : pyLower s = pyLower t) :
    s.length = t.length := by
  have := congrArg String.length h
  rwa [length_pyLower, length_pyLower] at this

theorem eq_empty_iff_data_nil (s : String) : s = "" ↔ s.data = [] := by
  rw [String.ext_iff]

theorem eq_empty_iff_of_pyLower_eq {s t : String} (h : pyLower s = pyLower t) :
    s = "" ↔ t = "" := by
  rw [eq_empty_iff_data_nil, eq_empty_iff_data_nil, ← List.length_eq_zero,
    ← List.length_eq_zero]
  have h2 : s.data.length = t.data.length := length_eq_of_pyLower_eq h
  omega

theorem pyIsAlpha_eq_of_pyLower_eq {s t : String} (h : pyLower s = pyLower t) :
    pyIsAlpha s = pyIsAlpha t := by
  have hl : s.data.map lowerChar = t.data.map lowerChar := by
    have := congrArg String.data h
    simpa [pyLower] using this
  have key : ∀ u : List Char, (u.map lowerChar).all isAlphaChar = u.all isAlphaChar := by
    intro u
    rw [List.all_map]
    congr 1
    funext c
    exact isAlphaChar_lowerChar c
  have := congrArg (List.all · isAlphaChar) hl
  simp only [key] at this
  simpa [pyIsAlpha] using this

theorem map_upper_of_map_lower_eq : ∀ (u v : List Char),
    u.map lowerChar = v.map lowerChar → u.map upperChar = v.map upperChar := by
  intro u
  induction u with
  | nil =>
    intro v h
    cases v with
    | nil => rfl
    | cons b m => simp at h
  | cons a l ih =>
    intro v h
    cases v with
    | nil => simp at h
    | cons b m =>
      simp only [List.map_cons, List.cons.injEq] at h ⊢
      exact ⟨upperChar_of_lowerChar_eq h.1, ih m h.2⟩

theorem pyUpper_eq_of_pyLower_eq {s t : String} (h : pyLower s = pyLower t) :
    pyUpper s = pyUpper t := by
  have hl : s.data.map lowerChar = t.data.map lowerChar := by
    have := congrArg String.data h
    simpa [pyLower] using this
  exact congrArg String.mk (map_upper_of_map_lower_eq s.data t.data hl)

end OrgBoundary

namespace OrgBoundary

theorem ne_empty_of_length_two {s : String} (h : s.length = 2) : s ≠ "" := by
  intro he
  rw [he] at h
  exact absurd h (by decide)

theorem normalizeCountry_two_alpha {s : String} (h2 : s.length = 2)
    (ha : pyIsAlpha s = true) :
    normalizeCountry (some s) = (some (pyUpper s), none) := by
  have hstrip : pyStrip s = s := pyStrip_eq_self_of_alpha ha
  have hne : s ≠ "" := ne_empty_of_length_two h2
  simp only [normalizeCountry, hstrip, if_neg hne]
  rw [if_pos ⟨h2, ha⟩]

theorem normalizeCountry_fst_of_pyLower_eq {s t : String}
    (h : pyLower s = pyLower t) :
    (normalizeCountry (some s)).1 = (normalizeCountry (some t)).1 := by
  have hempty := eq_empty_iff_of_pyLower_eq h
  by_cases hs : s = ""
  · rw [hs, hempty.mp hs]
  · have ht : t ≠ "" := fun he => hs (hempty.mpr he)
    have hv : pyLower (pyStrip s) = pyLower (pyStrip t) := by
      rw [pyLower_pyStrip, pyLower_pyStrip, h]
    have hvempty := eq_empty_iff_of_pyLower_eq hv
    have hvlen := length_eq_of_pyLower_eq hv
    have hvalpha := pyIsAlpha_eq_of_pyLower_eq hv
    simp only [normalizeCountry, if_neg hs, if_neg ht]
    by_cases hse : pyStrip s = ""
    · rw [if_pos hse, if_pos (hvempty.mp hse)]
    · rw [if_neg hse, if_neg (fun he => hse (hvempty.mpr he))]
      by_cases h2 : (pyStrip s).length = 2 ∧ pyIsAlpha (pyStrip s) = true
      · rw [if_pos h2,
          if_pos (⟨by rw [← hvlen]; exact h2.1, by rw [← hvalpha]; exact h2.2⟩ :
            (pyStrip t).length = 2 ∧ pyIsAlpha (pyStrip t) = true)]
        show some (pyUpper (pyStrip s)) = some (pyUpper (pyStrip t))
        rw [pyUpper_eq_of_pyLower_eq hv]
      · rw [if_neg h2,
          if_neg (fun hc => h2 ⟨by rw [hvlen]; exact hc.1, by rw [hvalpha]; exact hc.2⟩)]
        rw [hv]
        cases COUNTRY_NORMALIZATION_MAP.lookup (pyLower (pyStrip t)) with
        | some code => rfl
        | none =>
          cases COUNTRY_NORMALIZATION_MAP.lookup
              (pyStrip (keepLowerOrSpace (pyLower (pyStrip t)))) with
          | some code => rfl
          | none => rfl

end OrgBoundary

namespace OrgBoundary

/-- Modelled from the spec wording of C6: two inputs are "case or punctuation
variants of the same country name" when they agree after lower-casing and
deleting every non-alphabetic character. -/
def specCaseOrPunctVariant (s t : String) : Bool :=
  ((pyLower s).data.filter isAlphaChar) == ((pyLower t).data.filter isAlphaChar)

/-- C6, counterexample: `"UK"` and `"U.K."` are case/punctuation variants of
the same country name, yet `_normalize_country` maps the first to `"UK"` (the
two-letter bypass) and the second to `"GB"` (the cleaned table lookup), so the
claim's variant-insensitivity is false as stated. -/
theorem claim_C6_counterexample :
    specCaseOrPunctVariant "UK" "U.K." = true ∧
    normalizeCountry (some "UK") = (some "UK", none) ∧
    normalizeCountry (some "U.K.") = (some "GB", none) ∧
    ("UK" : String) ≠ "GB" := by
  refine ⟨by decide, by decide, by decide, by decide⟩

/-- C6 (amended): normalizing an already-ISO alpha-2 code (two-character,
purely alphabetic, upper-case) returns it unchanged, and any two *case*
variants of the same value (equal after lower-casing) yield the same ISO
code; punctuation variants are not guaranteed to agree (see the
counterexample). -/
theorem claim_C6 :
    (∀ c : String, c.length = 2 → c.data.all isUpperChar = true →
      normalizeCountry (some c) = (some c, none)) ∧
    (∀ s t : String, pyLower s = pyLower t →
      (normalizeCountry (some s)).1 = (normalizeCountry (some t)).1) := by
  constructor
  · intro c h2 hu
    rw [normalizeCountry_two_alpha h2 (pyIsAlpha_of_upper hu),
      pyUpper_eq_self_of_upper hu]
  · intro s t h
    exact normalizeCountry_fst_of_pyLower_eq h

/-- C6, witness: the amended claim at the concrete inputs `"CH"` and
`"France"`/`"FRANCE"`. -/
theorem claim_C6_witness :
    normalizeCountry (some "CH") = (some "CH", none) ∧
    (normalizeCountry (some "France")).1 = (normalizeCountry (some "FRANCE")).1 :=
  ⟨claim_C6.1 "CH" (by decide) (by decide),
   claim_C6.2 "France" "FRANCE" (by decide)⟩

/-- C9, counterexample: the table rows `"uk" → "GB"` and `"us" → "US"` are
*not* unreachable — punctuated inputs reach them through the cleaned retry
lookup. -/
theorem claim_C9_counterexample :
    normalizeCountry (some "u.k.") = (some "GB", none) ∧
    normalizeCountry (some "u.s.") = (some "US", none) := by
  refine ⟨by decide, by decide⟩

/-- C9 (amended): every two-character purely-alphabetic input is returned
upper-cased with no unmapped remainder, bypassing the country-name table
(`"uk"`/`"UK"` yield `"UK"`, never `"GB"`, and `"xx"` is accepted as `"XX"`);
the table rows `"uk" → "GB"` and `"us" → "US"` exist but remain reachable via
punctuated variants such as `"u.k."`. -/
theorem claim_C9 :
    (∀ s : String, s.length = 2 → pyIsAlpha s = true →
      normalizeCountry (some s) = (some (pyUpper s), none)) ∧
    normalizeCountry (some "uk") = (some "UK", none) ∧
    normalizeCountry (some "UK") = (some "UK", none) ∧
    normalizeCountry (some "xx") = (some "XX", none) ∧
    COUNTRY_NORMALIZATION_MAP.lookup "uk" = some "GB" ∧
    COUNTRY_NORMALIZATION_MAP.lookup "us" = some "US" ∧
    normalizeCountry (some "u.k.") = (some "GB", none) := by
  refine ⟨fun s h2 ha => normalizeCountry_two_alpha h2 ha,
    by decide, by decide, by decide, by decide, by decide, by decide⟩

/-- C9, witness: the universally quantified part of the amended claim at the
concrete input `"ab"`. -/
theorem claim_C9_witness :
    normalizeCountry (some "ab") = (some (pyUpper "ab"), none) :=
  claim_C9.1 "ab" (by decide) (by decide)

end OrgBoundary

namespace OrgBoundary

/-- A minimal usable document: a single `Entity Name` column and one row. -/
def nameOnlyDoc (p name : String) : ParsedDoc :=
  { status := some "ok", path := some p, sheetName := some "Sheet1",
    errorMsg := none,
    dataframe := some (["Entity Name"], [[("Entity Name", some name)]]) }

/-- Scenario-B document: one row with a verbose United States label. -/
def usaDoc : ParsedDoc :=
  { status := some "ok", path := some "a.csv", sheetName := none,
    errorMsg := none,
    dataframe := some (["Entity Name", "Country"],
      [[("Entity Name", some "Acme HQ"),
        ("Country", some "United States of America")]]) }

/-- Scenario-C document: one row with an unmappable country value. -/
def atlantisDoc : ParsedDoc :=
  { status := some "ok", path := some "a.csv", sheetName := none,
    errorMsg := none,
    dataframe := some (["Entity Name", "Country"],
      [[("Entity Name", some "Acme Plant"), ("Country", some "Atlantis")]]) }

/-- Scenario-D document: an unresolved parent name plus a standalone entity. -/
def parentDoc : ParsedDoc :=
  { status := some "ok", path := some "a.csv", sheetName := none,
    errorMsg := none,
    dataframe := some (["Entity Name", "Parent"],
      [[("Entity Name", some "Acme"), ("Parent", some "NoSuchParent")],
       [("Entity Name", some "Beta"), ("Parent", none)]]) }

/-- A document whose single row names itself as its own parent. -/
def selfLoopDoc : ParsedDoc :=
  { status := some "ok", path := some "a.csv", sheetName := none,
    errorMsg := none,
    dataframe := some (["Entity Name", "Entity Id", "Parent Id"],
      [[("Entity Name", some "Acme"), ("Entity Id", some "E1"),
        ("Parent Id", some "E1")]]) }

theorem forall₂_map_self {α β : Type} (P : α → β → Prop) (f : α → β)
    (l : List α) (h : ∀ x, P x (f x)) : List.Forall₂ P l (l.map f) := by
  induction l with
  | nil => exact List.Forall₂.nil
  | cons a t ih => exact List.Forall₂.cons (h a) ih

theorem consolidate_hierarchy_eq (docs : List ParsedDoc) :
    (consolidate docs).hierarchy = (consolidate docs).entities.map edgeOf := rfl

theorem consolidate_boundary_eq (docs : List ParsedDoc) :
    (consolidate docs).boundary = (consolidate docs).entities.map boundaryOf := rfl

theorem edgeOf_entity_id (e : Entity) : (edgeOf e).entity_id = e.entity_id := rfl

theorem edgeOf_relationship (e : Entity) :
    (edgeOf e).relationship = "root" ∨ (edgeOf e).relationship = "reports_to" := by
  unfold edgeOf
  dsimp only
  split
  · right; rfl
  · left; rfl

/-- C3: the hierarchy edge list of `consolidate` pairs up with the entity
list one-to-one — equal lengths, each edge carrying the corresponding
entity's `entity_id`, and every relationship either `root` or `reports_to`. -/
theorem claim_C3 (docs : List ParsedDoc) :
    (consolidate docs).hierarchy.length = (consolidate docs).entities.length ∧
    List.Forall₂ (fun (e : Entity) (h : HierarchyEdge) =>
      h.entity_id = e.entity_id ∧
      (h.relationship = "root" ∨ h.relationship = "reports_to"))
      (consolidate docs).entities (consolidate docs).hierarchy := by
  rw [consolidate_hierarchy_eq]
  constructor
  · exact List.length_map _ _
  · exact forall₂_map_self _ edgeOf _
      (fun e => ⟨edgeOf_entity_id e, edgeOf_relationship e⟩)

end OrgBoundary

namespace OrgBoundary

theorem pyOr_some_of_ne {s : String} (h : s ≠ "") (b : String) :
    pyOr (some s) b = s := by
  simp [pyOr, h]

theorem truthy_some_of_ne {s : String} (h : s ≠ "") : truthy (some s) = true := by
  simp [truthy, h]

/-- C10: parent lookups include the entity itself, so a self-referencing
parent (`parent_id` equal to the own `entity_id`, or `parent_name` matching
the own name case-insensitively) raises no `missing_parent` issue and yields
a `reports_to` edge pointing at the entity itself; concretely, the hierarchy
returned by `consolidate` can contain a self-loop edge, so it is not
guaranteed to be a forest. -/
theorem claim_C10 :
    (∀ (ents : List Entity) (e : Entity), e ∈ ents →
      e.entity_id ≠ "" → e.parent_id = some e.entity_id →
      issueOf (idsOf ents) (namesOf ents) e = none ∧
      edgeOf e = { entity_id := e.entity_id, parent_id := some e.entity_id,
                   parent_name := e.parent_name, relationship := "reports_to" }) ∧
    (∀ (ents : List Entity) (e : Entity) (s : String), e ∈ ents →
      truthy e.parent_id = false → e.parent_name = some s → s ≠ "" →
      pyLower (pyStrip s) = nameKey e →
      issueOf (idsOf ents) (namesOf ents) e = none ∧
      (edgeOf e).relationship = "reports_to") ∧
    (∃ h ∈ (consolidate [selfLoopDoc]).hierarchy, h.parent_id = some h.entity_id) := by
  refine ⟨?_, ?_, by decide⟩
  · intro ents e he hne hp
    have ht : truthy (some e.entity_id) = true := truthy_some_of_ne hne
    have hmem : pyOr (some e.entity_id) "" ∈ idsOf ents := by
      rw [pyOr_some_of_ne hne]
      exact List.mem_map_of_mem (fun x => x.entity_id) he
    constructor
    · simp only [issueOf, hp, ht, if_true, if_pos hmem]
    · simp only [edgeOf, hp, ht, Bool.true_or, if_true]
  · intro ents e s he hpid hpn hsne hmatch
    have ht : truthy (some s) = true := truthy_some_of_ne hsne
    have hmem : pyLower (pyStrip (pyOr (some s) "")) ∈ namesOf ents := by
      rw [pyOr_some_of_ne hsne, hmatch]
      exact List.mem_map_of_mem nameKey he
    constructor
    · simp only [issueOf, hpn, ht, hpid, Bool.false_eq_true, if_false, if_true,
        if_pos hmem]
    · simp only [edgeOf, hpn, hpid, ht, Bool.false_or, if_true]

/-- A one-entity roster whose entity names itself as parent by id. -/
def selfIdEntity : Entity :=
  { (default : Entity) with entity_id := "E1", parent_id := some "E1" }

/-- A one-entity roster whose entity names itself as parent by name, in a
different case. -/
def selfNameEntity : Entity :=
  { (default : Entity) with name := "Acme", parent_name := some "ACME" }

/-- C10, witness: the two universally quantified parts applied to a concrete
self-referencing roster (by id, and by case-insensitive name). -/
theorem claim_C10_witness :
    issueOf (idsOf [selfIdEntity]) (namesOf [selfIdEntity]) selfIdEntity = none ∧
    issueOf (idsOf [selfNameEntity]) (namesOf [selfNameEntity]) selfNameEntity
      = none := by
  constructor
  · exact (claim_C10.1 [selfIdEntity] selfIdEntity (List.mem_singleton.mpr rfl)
      (by decide) rfl).1
  · exact (claim_C10.2.1 [selfNameEntity] selfNameEntity "ACME"
      (List.mem_singleton.mpr rfl) (by decide) rfl (by decide) (by decide)).1

end OrgBoundary

namespace OrgBoundary

theorem dedupGo_sublist (seen : List String) (es : List Entity) :
    (dedupGo seen es).1.Sublist es := by
  induction es generalizing seen with
  | nil => exact List.Sublist.refl []
  | cons e rest ih =>
    unfold dedupGo
    dsimp only
    split
    · exact (ih seen).cons e
    · exact (ih (dedupKey e :: seen)).cons₂ e

theorem dedupGo_keys (seen : List String) (es : List Entity) :
    List.Pairwise (fun a b => dedupKey a ≠ dedupKey b) (dedupGo seen es).1 ∧
    ∀ e ∈ (dedupGo seen es).1, dedupKey e ∉ seen := by
  induction es generalizing seen with
  | nil => exact ⟨List.Pairwise.nil, fun e he => absurd he (List.not_mem_nil e)⟩
  | cons e rest ih =>
    unfold dedupGo
    dsimp only
    split
    · exact ih seen
    · rename_i hk
      obtain ⟨hpw, hseen⟩ := ih (dedupKey e :: seen)
      refine ⟨List.Pairwise.cons ?_ hpw, ?_⟩
      · intro x hx hkey
        exact hseen x hx (by rw [← hkey]; exact List.mem_cons_self _ _)
      · intro x hx
        rcases List.mem_cons.mp hx with h | h
        · rw [h]; exact hk
        · exact fun hc => hseen x h (List.mem_cons_of_mem _ hc)

theorem dedupGo_find (seen : List String) (es : List Entity) :
    ∀ e ∈ (dedupGo seen es).1,
      es.find? (fun x => dedupKey x == dedupKey e) = some e := by
  induction es generalizing seen with
  | nil => exact fun e he => absurd he (List.not_mem_nil e)
  | cons a rest ih =>
    intro e he
    unfold dedupGo at he
    dsimp only at he
    rw [List.find?_cons]
    split at he
    · rename_i hk
      have hne : dedupKey a ≠ dedupKey e := by
        intro hkey
        exact (dedupGo_keys seen rest).2 e he (hkey ▸ hk)
      split
      · rename_i hb
        exact absurd (eq_of_beq hb) hne
      · exact ih seen e he
    · rename_i hk
      rcases List.mem_cons.mp he with h | h
      · subst h
        split
        · rfl
        · rename_i hb
          exact absurd (beq_self_eq_true (dedupKey e)) (by simp_all)
      · have hne : dedupKey a ≠ dedupKey e := by
          intro hkey
          exact (dedupGo_keys (dedupKey a :: seen) rest).2 e h
            (hkey ▸ List.mem_cons_self _ _)
        split
        · rename_i hb
          exact absurd (eq_of_beq hb) hne
        · exact ih (dedupKey a :: seen) e h

theorem dedupGo_cover (seen : List String) (es : List Entity) :
    ∀ e ∈ es, dedupKey e ∈ seen ∨
      ∃ x ∈ (dedupGo seen es).1, dedupKey x = dedupKey e := by
  induction es generalizing seen with
  | nil => exact fun e he => absurd he (List.not_mem_nil e)
  | cons a rest ih =>
    intro e he
    unfold dedupGo
    dsimp only
    rcases List.mem_cons.mp he with h | h
    · subst h
      split
      · rename_i hk
        exact Or.inl hk
      · exact Or.inr ⟨e, List.mem_cons_self _ _, rfl⟩
    · split
      · rename_i hk
        exact ih seen e h
      · rcases ih (dedupKey a :: seen) e h with hmem | ⟨x, hx, hkey⟩
        · rcases List.mem_cons.mp hmem with hh | hh
          · exact Or.inr ⟨a, List.mem_cons_self _ _, hh.symm⟩
          · exact Or.inl hh
        · exact Or.inr ⟨x, List.mem_cons_of_mem _ hx, hkey⟩

theorem dedupGo_length (seen : List String) (es : List Entity) :
    (dedupGo seen es).1.length + (dedupGo seen es).2.length = es.length := by
  induction es generalizing seen with
  | nil => rfl
  | cons a rest ih =>
    unfold dedupGo
    dsimp only
    split
    · have := ih seen
      simp only [List.length_cons]
      omega
    · have := ih (dedupKey a :: seen)
      simp only [List.length_cons]
      omega

theorem dedupGo_dups (seen : List String) (es : List Entity) :
    ∀ pr ∈ (dedupGo seen es).2, ∃ e ∈ es,
      pr.1 = e.entity_id ∧ pr.2 = e.source_file ∧
      (dedupKey e ∈ seen ∨ ∃ x ∈ (dedupGo seen es).1, dedupKey x = dedupKey e) := by
  induction es generalizing seen with
  | nil => exact fun pr hpr => absurd hpr (List.not_mem_nil pr)
  | cons a rest ih =>
    intro pr hpr
    unfold dedupGo at hpr ⊢
    dsimp only at hpr ⊢
    split at hpr
    · rename_i hk
      rw [if_pos hk]
      dsimp only
      rcases List.mem_cons.mp hpr with h | h
      · exact ⟨a, List.mem_cons_self _ _, by rw [h], by rw [h], Or.inl hk⟩
      · obtain ⟨e, he, h1, h2, h3⟩ := ih seen pr h
        exact ⟨e, List.mem_cons_of_mem _ he, h1, h2, h3⟩
    · rename_i hk
      rw [if_neg hk]
      dsimp only
      obtain ⟨e, he, h1, h2, h3⟩ := ih (dedupKey a :: seen) pr hpr
      refine ⟨e, List.mem_cons_of_mem _ he, h1, h2, ?_⟩
      rcases h3 with hmem | ⟨x, hx, hkey⟩
      · rcases List.mem_cons.mp hmem with hh | hh
        · exact Or.inr ⟨a, List.mem_cons_self _ _, hh.symm⟩
        · exact Or.inl hh
      · exact Or.inr ⟨x, List.mem_cons_of_mem _ hx, hkey⟩

end OrgBoundary

namespace OrgBoundary

theorem mkEntityId_ne_empty (name : String) : mkEntityId name ≠ "" := by
  intro h
  have hl := congrArg String.length h
  rw [mkEntityId, String.length_append] at hl
  have h4 : ("ent-" : String).length = 4 := rfl
  have h0 : ("" : String).length = 0 := rfl
  omega

theorem fetchValue_ne_empty {row : Row} {col : Option String} {v : String}
    (h : fetchValue row col = some v) : v ≠ "" := by
  intro hv
  subst hv
  unfold fetchValue at h
  match col with
  | none => exact absurd h (by simp)
  | some c =>
    dsimp only at h
    split at h
    · exact absurd h (by simp)
    · split at h
      · exact absurd h (by simp)
      · exact absurd h (by simp)
      · rename_i v2 heq
        split at h
        · exact absurd h (by simp)
        · rename_i hns
          have : pyStrip v2 = "" := (Option.some.injEq _ _).mp h
          rw [this] at hns
          exact hns (by decide)

theorem extractRow_props {columns : List String} {cols : Cols}
    {base sheet : String} {idx : Nat} {row : Row} {ro : RowOut}
    (h : extractRow columns cols base sheet idx row = some ro) :
    ro.entity.name ≠ "" ∧ ro.entity.entity_id ≠ "" ∧
    ro.entity.source_file = base := by
  unfold extractRow at h
  split at h
  · exact absurd h (by simp)
  · rename_i entityName hfetch
    have hname : entityName ≠ "" := fetchValue_ne_empty hfetch
    have hro := (Option.some.injEq _ _).mp h
    subst hro
    refine ⟨hname, ?_, rfl⟩
    dsimp only
    split
    · rename_i hid
      cases hfid : fetchValue row cols.idCol with
      | none =>
        rw [hfid] at hid
        exact absurd hid (by simp [truthy])
      | some s =>
        have hs : s ≠ "" := fetchValue_ne_empty hfid
        rw [pyOr_some_of_ne hs]
        exact hs
    · exact mkEntityId_ne_empty entityName

end OrgBoundary

namespace OrgBoundary

theorem processDoc_entities_props (doc : ParsedDoc) :
    ∀ e ∈ (processDoc doc).entities, e.name ≠ "" ∧ e.entity_id ≠ "" := by
  intro e he
  unfold processDoc at he
  split at he
  · exact absurd he (by simp [DocOut.ofIssue, DocOut.empty])
  · split at he
    · exact absurd he (by simp [DocOut.ofIssue, DocOut.empty])
    · split at he
      · exact absurd he (by simp [DocOut.ofIssue, DocOut.empty])
      · split at he
        · exact absurd he (by simp [DocOut.ofIssue, DocOut.empty])
        · simp only [docOutOfRows, rowOuts, List.mem_map] at he
          obtain ⟨ro, hro, heq⟩ := he
          rw [List.mem_filterMap] at hro
          obtain ⟨pr, _, hex⟩ := hro
          obtain ⟨h1, h2, _⟩ := extractRow_props hex
          subst heq
          exact ⟨h1, h2⟩

theorem extractAll_cons (d : ParsedDoc) (ds : List ParsedDoc) :
    extractAll (d :: ds) = DocOut.append (processDoc d) (extractAll ds) := rfl

theorem extractAll_entities_mem {docs : List ParsedDoc} {e : Entity}
    (h : e ∈ (extractAll docs).entities) :
    ∃ doc ∈ docs, e ∈ (processDoc doc).entities := by
  induction docs with
  | nil => exact absurd h (by simp [extractAll, DocOut.empty])
  | cons d ds ih =>
    rw [extractAll_cons] at h
    simp only [DocOut.append] at h
    rcases List.mem_append.mp h with h1 | h1
    · exact ⟨d, List.mem_cons_self _ _, h1⟩
    · obtain ⟨doc, hdoc, hmem⟩ := ih h1
      exact ⟨doc, List.mem_cons_of_mem _ hdoc, hmem⟩

theorem extractAll_issues_mem {docs : List ParsedDoc} {doc : ParsedDoc}
    (hdoc : doc ∈ docs) :
    ∀ i ∈ (processDoc doc).issues, i ∈ (extractAll docs).issues := by
  induction docs with
  | nil => exact absurd hdoc (List.not_mem_nil doc)
  | cons d ds ih =>
    intro i hi
    rw [extractAll_cons]
    simp only [DocOut.append, List.mem_append]
    rcases List.mem_cons.mp hdoc with h | h
    · exact Or.inl (h ▸ hi)
    · exact Or.inr (ih h i hi)

theorem consolidate_issues_eq (docs : List ParsedDoc) :
    (consolidate docs).issues =
      (extractAll docs).issues ++
      ((consolidate docs).entities.filterMap
        (issueOf (idsOf (consolidate docs).entities)
          (namesOf (consolidate docs).entities))) ++
      compileQualityIssues
        (buildMultiDict (dedupGo [] (extractAll docs).entities).2)
        (buildMultiDict (namePassGo [] (consolidate docs).entities))
        (extractAll docs).missingIds
        (buildMultiDict (extractAll docs).unknown)
        (buildMultiDict (extractAll docs).nonIso)
        (extractAll docs).missingRegions
        (extractAll docs).missingTypes := rfl

theorem consolidate_entities_eq (docs : List ParsedDoc) :
    (consolidate docs).entities = (dedupGo [] (extractAll docs).entities).1 := rfl

/-- C2: after deduplication no two surviving records share the same
lower-cased, whitespace-stripped `entity_id`, and every surviving
`entity_id` is a non-empty string. -/
theorem claim_C2 (docs : List ParsedDoc) :
    List.Pairwise (fun a b => pyLower (pyStrip a.entity_id) ≠
      pyLower (pyStrip b.entity_id)) (consolidate docs).entities ∧
    ∀ e ∈ (consolidate docs).entities, e.entity_id ≠ "" := by
  constructor
  · exact (dedupGo_keys [] (extractAll docs).entities).1
  · intro e he
    have hm : e ∈ (extractAll docs).entities :=
      (dedupGo_sublist [] (extractAll docs).entities).subset he
    obtain ⟨doc, _, hmem⟩ := extractAll_entities_mem hm
    exact (processDoc_entities_props doc e hmem).2

/-- C2, witness: the invariant at a concrete input. -/
theorem claim_C2_witness :
    List.Pairwise (fun a b => pyLower (pyStrip a.entity_id) ≠
      pyLower (pyStrip b.entity_id)) (consolidate [selfLoopDoc]).entities ∧
    ((consolidate [selfLoopDoc]).entities.headD default).entity_id ≠ "" :=
  ⟨(claim_C2 [selfLoopDoc]).1,
   (claim_C2 [selfLoopDoc]).2 _ (by decide)⟩

end OrgBoundary

namespace OrgBoundary


theorem multiLookup_dictAppend_self (d : List (String × List String))
    (k v : String) :
    multiLookup (dictAppend d k v) k = multiLookup d k ++ [v] := by
  induction d with
  | nil => simp [dictAppend, multiLookup, List.lookup]
  | cons p rest ih =>
    obtain ⟨k2, vs⟩ := p
    unfold dictAppend
    by_cases hk : k2 = k
    · subst hk
      simp [multiLookup, List.lookup]
    · rw [if_neg hk]
      have hb : (k == k2) = false := beq_eq_false_iff_ne.mpr (Ne.symm hk)
      simp only [multiLookup, List.lookup, hb]
      exact ih

theorem multiLookup_dictAppend_other (d : List (String × List String))
    {k k2 : String} (v : String) (hne : k2 ≠ k) :
    multiLookup (dictAppend d k v) k2 = multiLookup d k2 := by
  have hb : (k2 == k) = false := beq_eq_false_iff_ne.mpr hne
  induction d with
  | nil => simp only [dictAppend, multiLookup, List.lookup, hb]
  | cons p rest ih =>
    obtain ⟨k3, vs⟩ := p
    unfold dictAppend
    by_cases hk : k3 = k
    · subst hk
      simp only [multiLookup, List.lookup, hb]
    · rw [if_neg hk]
      by_cases h2 : k2 = k3
      · subst h2
        simp only [multiLookup, List.lookup, beq_self_eq_true]
      · have hb2 : (k2 == k3) = false := beq_eq_false_iff_ne.mpr h2
        simp only [multiLookup, List.lookup, hb2]
        exact ih

theorem mem_multiLookup_foldl (prs : List (String × String))
    (d : List (String × List String)) (k : String) (v : String)
    (h : v ∈ multiLookup d k) :
    v ∈ multiLookup (prs.foldl (fun acc pr => dictAppend acc pr.1 pr.2) d) k := by
  induction prs generalizing d with
  | nil => exact h
  | cons q rest ih =>
    simp only [List.foldl_cons]
    apply ih
    by_cases hk : k = q.1
    · subst hk
      rw [multiLookup_dictAppend_self]
      exact List.mem_append_left _ h
    · rw [multiLookup_dictAppend_other _ _ hk]
      exact h

theorem mem_multiLookup_buildMultiDict (prs : List (String × String)) :
    ∀ pr ∈ prs, pr.2 ∈ multiLookup (buildMultiDict prs) pr.1 := by
  have general : ∀ (l : List (String × String)) (d : List (String × List String)),
      ∀ pr ∈ l, (pr : String × String).2 ∈
        multiLookup (l.foldl (fun acc pr => dictAppend acc pr.1 pr.2) d) pr.1 := by
    intro l
    induction l with
    | nil => exact fun d pr hpr => absurd hpr (List.not_mem_nil pr)
    | cons q rest ih =>
      intro d pr hpr
      rcases List.mem_cons.mp hpr with h | h
      · subst h
        simp only [List.foldl_cons]
        apply mem_multiLookup_foldl
        rw [multiLookup_dictAppend_self]
        exact List.mem_append_right _ (List.mem_singleton.mpr rfl)
      · exact ih (dictAppend d q.1 q.2) pr h
  exact general prs []

theorem dictAppend_ne_nil (d : List (String × List String)) (k v : String) :
    dictAppend d k v ≠ [] := by
  cases d with
  | nil => simp [dictAppend]
  | cons p rest =>
    obtain ⟨k2, vs⟩ := p
    unfold dictAppend
    split <;> simp

theorem buildMultiDict_ne_nil {prs : List (String × String)} (h : prs ≠ []) :
    buildMultiDict prs ≠ [] := by
  have general : ∀ (l : List (String × String)) (d : List (String × List String)),
      d ≠ [] ∨ l ≠ [] →
      l.foldl (fun acc pr => dictAppend acc pr.1 pr.2) d ≠ [] := by
    intro l
    induction l with
    | nil =>
      intro d hd
      rcases hd with hd | hd
      · exact hd
      · exact absurd rfl hd
    | cons q rest ih =>
      intro d _
      simp only [List.foldl_cons]
      exact ih (dictAppend d q.1 q.2) (Or.inl (dictAppend_ne_nil d q.1 q.2))
  exact general prs [] (Or.inr h)

/-- When pass one drops at least one record, the aggregated
`duplicate_entity_id` issue is present in the result of `consolidate`. -/
theorem dup_issue_present (docs : List ParsedDoc)
    (h : (dedupGo [] (extractAll docs).entities).2 ≠ []) :
    ∃ i ∈ (consolidate docs).issues,
      i.code = "duplicate_entity_id" ∧ i.severity = "warning" := by
  have hne : ¬ (buildMultiDict
      (dedupGo [] (extractAll docs).entities).2).isEmpty = true := by
    rw [List.isEmpty_iff]
    exact buildMultiDict_ne_nil h
  rw [consolidate_issues_eq]
  unfold compileQualityIssues
  rw [if_neg hne]
  exact ⟨_, List.mem_append_right _
    (List.mem_append_left _ (List.mem_append_left _ (List.mem_append_left _
      (List.mem_append_left _ (List.mem_append_left _ (List.mem_append_left _
        (List.mem_singleton.mpr rfl))))))), rfl, rfl⟩

end OrgBoundary

namespace OrgBoundary

/-- The Scenario-A pair: two documents, each one `"Acme Corp"` row, no id. -/
def acmeDocA : ParsedDoc := nameOnlyDoc "a.csv" "Acme Corp"

/-- Second document of the Scenario-A pair. -/
def acmeDocB : ParsedDoc := nameOnlyDoc "b.csv" "Acme Corp"

/-- C5: pass one of deduplication is first-seen-wins and non-editing — the
survivors are a sublist of the extracted records (in ingestion order:
documents in input order, rows in document order), each survivor is exactly
the first extracted record with its dedup key, every key is represented,
every dropped occurrence is counted and its `(entity_id, source_file)` is
recorded in the `duplicate_ids` aggregation behind the `duplicate_entity_id`
issue, and the name-based second pass removes nothing (the final entity list
*is* the pass-one survivor list). -/
theorem claim_C5 (docs : List ParsedDoc) :
    (consolidate docs).entities = (dedupGo [] (extractAll docs).entities).1 ∧
    (consolidate docs).entities.Sublist (extractAll docs).entities ∧
    (∀ e ∈ (consolidate docs).entities,
      (extractAll docs).entities.find?
        (fun x => dedupKey x == dedupKey e) = some e) ∧
    (∀ e ∈ (extractAll docs).entities, ∃ x ∈ (consolidate docs).entities,
      dedupKey x = dedupKey e) ∧
    (consolidate docs).entities.length +
      (dedupGo [] (extractAll docs).entities).2.length =
      (extractAll docs).entities.length ∧
    (∀ pr ∈ (dedupGo [] (extractAll docs).entities).2,
      ∃ e ∈ (extractAll docs).entities, pr.1 = e.entity_id ∧
        pr.2 = e.source_file ∧ ∃ x ∈ (consolidate docs).entities,
          dedupKey x = dedupKey e) ∧
    (∀ pr ∈ (dedupGo [] (extractAll docs).entities).2,
      pr.2 ∈ multiLookup
        (buildMultiDict (dedupGo [] (extractAll docs).entities).2) pr.1) ∧
    ((dedupGo [] (extractAll docs).entities).2 ≠ [] →
      ∃ i ∈ (consolidate docs).issues, i.code = "duplicate_entity_id") := by
  refine ⟨rfl, dedupGo_sublist [] _, dedupGo_find [] _, ?_, dedupGo_length [] _,
    ?_, mem_multiLookup_buildMultiDict _, ?_⟩
  · intro e he
    rcases dedupGo_cover [] (extractAll docs).entities e he with hmem | hx
    · exact absurd hmem (List.not_mem_nil _)
    · exact hx
  · intro pr hpr
    obtain ⟨e, he, h1, h2, h3⟩ := dedupGo_dups [] (extractAll docs).entities pr hpr
    rcases h3 with hmem | hx
    · exact absurd hmem (List.not_mem_nil _)
    · exact ⟨e, he, h1, h2, hx⟩
  · intro h
    obtain ⟨i, hi, hc, _⟩ := dup_issue_present docs h
    exact ⟨i, hi, hc⟩

/-- C5, witness: at the Scenario-A input the single survivor is the first
extracted record for its key, and the duplicate issue is present. -/
theorem claim_C5_witness :
    ((extractAll [acmeDocA, acmeDocB]).entities.find?
      (fun x => dedupKey x ==
        dedupKey ((consolidate [acmeDocA, acmeDocB]).entities.headD default)) =
      some ((consolidate [acmeDocA, acmeDocB]).entities.headD default)) ∧
    (∃ i ∈ (consolidate [acmeDocA, acmeDocB]).issues,
      i.code = "duplicate_entity_id") :=
  ⟨(claim_C5 [acmeDocA, acmeDocB]).2.2.1 _ (by decide),
   (claim_C5 [acmeDocA, acmeDocB]).2.2.2.2.2.2.2 (by decide)⟩

end OrgBoundary

namespace OrgBoundary

/-- A document that failed upstream parsing. -/
def badDoc : ParsedDoc :=
  { status := some "error", path := some "x/c.csv", sheetName := none,
    errorMsg := some "boom", dataframe := none }

/-- A parsed document with no rows. -/
def emptyDoc : ParsedDoc :=
  { status := some "ok", path := some "c.csv", sheetName := some "",
    errorMsg := none, dataframe := some (["A"], []) }

/-- A parsed document in which no name column can be detected. -/
def noNameDoc : ParsedDoc :=
  { status := some "ok", path := some "c.csv", sheetName := none,
    errorMsg := none, dataframe := some (["Foo"], [[("Foo", some "v")]]) }

/-- C4: the embedding of `consolidate` is a total function — every modelled
input yields a result — and each document-level failure mode (non-ok status,
missing or empty dataframe, undetectable name column) surfaces as an Issue
record in the returned issue list rather than an exception. -/
theorem claim_C4 (docs : List ParsedDoc) (doc : ParsedDoc) (hdoc : doc ∈ docs) :
    (doc.status ≠ some "ok" →
      ∃ i ∈ (consolidate docs).issues,
        i.code = "input_unusable" ∧ i.severity = "error") ∧
    (doc.status = some "ok" → doc.dataframe = none →
      ∃ i ∈ (consolidate docs).issues,
        i.code = "empty_sheet" ∧ i.severity = "warning") ∧
    (∀ columns rows, doc.status = some "ok" →
      doc.dataframe = some (columns, rows) →
      (rows.isEmpty = true ∨ columns.isEmpty = true) →
      ∃ i ∈ (consolidate docs).issues,
        i.code = "empty_sheet" ∧ i.severity = "warning") ∧
    (∀ columns rows, doc.status = some "ok" →
      doc.dataframe = some (columns, rows) →
      ¬ (rows.isEmpty = true ∨ columns.isEmpty = true) →
      detectNameColumn columns = none →
      ∃ i ∈ (consolidate docs).issues,
        i.code = "missing_name_column" ∧ i.severity = "error") := by
  have lift : ∀ i, i ∈ (processDoc doc).issues →
      i ∈ (consolidate docs).issues := by
    intro i hi
    rw [consolidate_issues_eq]
    exact List.mem_append_left _
      (List.mem_append_left _ (extractAll_issues_mem hdoc i hi))
  refine ⟨?_, ?_, ?_, ?_⟩
  · intro h
    have hp : ∃ i ∈ (processDoc doc).issues,
        i.code = "input_unusable" ∧ i.severity = "error" := by
      unfold processDoc
      rw [if_pos h]
      exact ⟨_, List.mem_singleton.mpr rfl, rfl, rfl⟩
    obtain ⟨i, hi, hc⟩ := hp
    exact ⟨i, lift i hi, hc⟩
  · intro h h2
    have hp : ∃ i ∈ (processDoc doc).issues,
        i.code = "empty_sheet" ∧ i.severity = "warning" := by
      unfold processDoc
      rw [h, if_neg (fun hh => hh rfl), h2]
      exact ⟨_, List.mem_singleton.mpr rfl, rfl, rfl⟩
    obtain ⟨i, hi, hc⟩ := hp
    exact ⟨i, lift i hi, hc⟩
  · intro columns rows h h2 hempty
    have hp : ∃ i ∈ (processDoc doc).issues,
        i.code = "empty_sheet" ∧ i.severity = "warning" := by
      unfold processDoc
      rw [h, if_neg (fun hh => hh rfl), h2]
      dsimp only
      rw [if_pos hempty]
      exact ⟨_, List.mem_singleton.mpr rfl, rfl, rfl⟩
    obtain ⟨i, hi, hc⟩ := hp
    exact ⟨i, lift i hi, hc⟩
  · intro columns rows h h2 hfull hname
    have hp : ∃ i ∈ (processDoc doc).issues,
        i.code = "missing_name_column" ∧ i.severity = "error" := by
      unfold processDoc
      rw [h, if_neg (fun hh => hh rfl), h2]
      dsimp only
      rw [if_neg hfull, hname]
      exact ⟨_, List.mem_singleton.mpr rfl, rfl, rfl⟩
    obtain ⟨i, hi, hc⟩ := hp
    exact ⟨i, lift i hi, hc⟩

/-- C4, witness: the three failure modes at a concrete three-document input. -/
theorem claim_C4_witness :
    (∃ i ∈ (consolidate [badDoc, emptyDoc, noNameDoc]).issues,
      i.code = "input_unusable" ∧ i.severity = "error") ∧
    (∃ i ∈ (consolidate [badDoc, emptyDoc, noNameDoc]).issues,
      i.code = "empty_sheet" ∧ i.severity = "warning") ∧
    (∃ i ∈ (consolidate [badDoc, emptyDoc, noNameDoc]).issues,
      i.code = "missing_name_column" ∧ i.severity = "error") :=
  ⟨(claim_C4 [badDoc, emptyDoc, noNameDoc] badDoc (by decide)).1 (by decide),
   (claim_C4 [badDoc, emptyDoc, noNameDoc] emptyDoc (by decide)).2.2.1
     ["A"] [] rfl rfl (by decide),
   (claim_C4 [badDoc, emptyDoc, noNameDoc] noNameDoc (by decide)).2.2.2
     ["Foo"] [[("Foo", some "v")]] rfl rfl (by decide) (by decide)⟩

end OrgBoundary

namespace OrgBoundary

/-- C8: an entity whose `parent_id` is unset and whose `parent_name` matches
no surviving entity name case-insensitively gets a `missing_parent` warning
naming it, a `reports_to` edge that preserves the unresolved `parent_name`,
and is still included in the boundary; an entity with neither reference gets
a `root` edge and contributes no `missing_parent` issue. -/
theorem claim_C8 (docs : List ParsedDoc) :
    (∀ (e : Entity) (pn : String), e ∈ (consolidate docs).entities →
      truthy e.parent_id = false → e.parent_name = some pn → pn ≠ "" →
      (∀ e2 ∈ (consolidate docs).entities, nameKey e2 ≠ pyLower (pyStrip pn)) →
      (∃ i ∈ (consolidate docs).issues, i.code = "missing_parent" ∧
        i.severity = "warning" ∧ i.entity = some e.name) ∧
      edgeOf e ∈ (consolidate docs).hierarchy ∧
      (edgeOf e).relationship = "reports_to" ∧
      (edgeOf e).parent_name = some pn ∧
      boundaryOf e ∈ (consolidate docs).boundary ∧
      (boundaryOf e).in_boundary = true) ∧
    (∀ e : Entity, truthy e.parent_id = false → truthy e.parent_name = false →
      (edgeOf e).relationship = "root" ∧
      ∀ ids names, issueOf ids names e = none) := by
  constructor
  · intro e pn he hpid hpn hpnne hnomatch
    have hname : e.name ≠ "" := by
      have hm : e ∈ (extractAll docs).entities :=
        (dedupGo_sublist [] (extractAll docs).entities).subset he
      obtain ⟨doc, _, hmem⟩ := extractAll_entities_mem hm
      exact (processDoc_entities_props doc e hmem).1
    have hnotmem : pyLower (pyStrip (pyOr (some pn) "")) ∉
        namesOf (consolidate docs).entities := by
      rw [pyOr_some_of_ne hpnne]
      intro hmem
      obtain ⟨e2, he2, heq⟩ := List.mem_map.mp hmem
      exact hnomatch e2 he2 heq
    have hissue : issueOf (idsOf (consolidate docs).entities)
        (namesOf (consolidate docs).entities) e =
        some (mkIssue "missing_parent"
          ("Parent reference for " ++ e.name ++ " could not be matched")
          "warning" (some e.name) (some "parent") (some e.source_file)
          (some e.source_sheet) (some e.source_row)
          (some "Provide a matching parent row or confirm the entity is standalone")
          (some [pyOr (some pn) ""])) := by
      unfold issueOf
      rw [hpid, hpn]
      simp only [Bool.false_eq_true, if_false, truthy_some_of_ne hpnne, if_true,
        if_neg hnotmem]
    have hmem : (mkIssue "missing_parent"
        ("Parent reference for " ++ e.name ++ " could not be matched")
        "warning" (some e.name) (some "parent") (some e.source_file)
        (some e.source_sheet) (some e.source_row)
        (some "Provide a matching parent row or confirm the entity is standalone")
        (some [pyOr (some pn) ""])) ∈ (consolidate docs).issues := by
      rw [consolidate_issues_eq]
      exact List.mem_append_left _ (List.mem_append_right _
        (List.mem_filterMap.mpr ⟨e, he, hissue⟩))
    refine ⟨⟨_, hmem, rfl, rfl, ?_⟩, ?_, ?_, ?_, ?_, rfl⟩
    · show (if truthy (some e.name) = true then some e.name else none) = some e.name
      rw [if_pos (truthy_some_of_ne hname)]
    · rw [consolidate_hierarchy_eq]
      exact List.mem_map_of_mem edgeOf he
    · show (if truthy e.parent_id || truthy e.parent_name then "reports_to"
        else "root") = "reports_to"
      rw [hpid, hpn, truthy_some_of_ne hpnne]
      rfl
    · exact hpn
    · rw [consolidate_boundary_eq]
      exact List.mem_map_of_mem boundaryOf he
  · intro e h1 h2
    constructor
    · show (if truthy e.parent_id || truthy e.parent_name then "reports_to"
        else "root") = "root"
      rw [h1, h2]
      rfl
    · intro ids names
      unfold issueOf
      rw [h1, h2]
      simp

/-- C8, witness: Scenario D — `"Acme"` reports to the unresolved
`"NoSuchParent"` and is flagged but kept in boundary, while `"Beta"` with no
parent reference is a `root` with no issue of its own. -/
theorem claim_C8_witness :
    (∃ i ∈ (consolidate [parentDoc]).issues, i.code = "missing_parent" ∧
      i.severity = "warning" ∧
      i.entity = some ((consolidate [parentDoc]).entities.headD default).name) ∧
    (edgeOf ((consolidate [parentDoc]).entities.headD default)).relationship
      = "reports_to" ∧
    (boundaryOf ((consolidate [parentDoc]).entities.headD default)).in_boundary
      = true ∧
    (edgeOf ((consolidate [parentDoc]).entities.getD 1 default)).relationship
      = "root" := by
  have h1 := (claim_C8 [parentDoc]).1
    ((consolidate [parentDoc]).entities.headD default) "NoSuchParent"
    (by decide) (by decide) (by decide) (by decide) (by decide)
  have h2 := (claim_C8 [parentDoc]).2
    ((consolidate [parentDoc]).entities.getD 1 default) (by decide) (by decide)
  exact ⟨h1.1, h1.2.2.1, h1.2.2.2.2.2, h2.1⟩

end OrgBoundary

namespace OrgBoundary

theorem take8_ne_nil {α : Type} {l : List α} (h : l ≠ []) : l.take 8 ≠ [] := by
  cases l with
  | nil => exact absurd rfl h
  | cons a t => simp [List.take]

theorem noniso_issue_present (docs : List ParsedDoc)
    (h : (extractAll docs).nonIso ≠ []) :
    ∃ i ∈ (consolidate docs).issues, i.code = "country_standardization" ∧
      i.severity = "info" ∧ i.details =
        some (((buildMultiDict (extractAll docs).nonIso).map (·.1)).take 8) := by
  have hdict : buildMultiDict (extractAll docs).nonIso ≠ [] :=
    buildMultiDict_ne_nil h
  have hne : ¬ (buildMultiDict (extractAll docs).nonIso).isEmpty = true := by
    rw [List.isEmpty_iff]
    exact hdict
  have hlistb : ¬ ((((buildMultiDict (extractAll docs).nonIso).map
      (·.1)).take 8)).isEmpty = true := by
    rw [List.isEmpty_iff]
    apply take8_ne_nil
    rw [ne_eq, List.map_eq_nil_iff]
    exact hdict
  have hmem : (mkIssue "country_standardization"
      (toString (((buildMultiDict (extractAll docs).nonIso).map
        (fun p => p.2.length)).sum) ++
        " facilities use verbose country labels; ISO-2 equivalents inferred")
      "info" none none none none none
      (some "Store ISO-2 country codes alongside descriptive labels to prevent downstream ambiguity")
      (some (((buildMultiDict (extractAll docs).nonIso).map (·.1)).take 8)))
      ∈ (consolidate docs).issues := by
    rw [consolidate_issues_eq]
    unfold compileQualityIssues
    refine List.mem_append_right _ (List.mem_append_left _
      (List.mem_append_left _ (List.mem_append_right _ ?_)))
    rw [if_neg hne]
    exact List.mem_singleton.mpr rfl
  refine ⟨_, hmem, rfl, rfl, ?_⟩
  show (if (((buildMultiDict (extractAll docs).nonIso).map
      (·.1)).take 8).isEmpty = true then none
    else some (((buildMultiDict (extractAll docs).nonIso).map (·.1)).take 8)) =
    some (((buildMultiDict (extractAll docs).nonIso).map (·.1)).take 8)
  rw [if_neg hlistb]

theorem unknown_issue_present (docs : List ParsedDoc)
    (h : (extractAll docs).unknown ≠ []) :
    ∃ i ∈ (consolidate docs).issues, i.code = "country_normalization" ∧
      i.severity = "warning" ∧ i.details =
        some (((buildMultiDict (extractAll docs).unknown).map (·.1)).take 8) := by
  have hdict : buildMultiDict (extractAll docs).unknown ≠ [] :=
    buildMultiDict_ne_nil h
  have hne : ¬ (buildMultiDict (extractAll docs).unknown).isEmpty = true := by
    rw [List.isEmpty_iff]
    exact hdict
  have hlistb : ¬ ((((buildMultiDict (extractAll docs).unknown).map
      (·.1)).take 8)).isEmpty = true := by
    rw [List.isEmpty_iff]
    apply take8_ne_nil
    rw [ne_eq, List.map_eq_nil_iff]
    exact hdict
  have hmem : (mkIssue "country_normalization"
      (toString (((buildMultiDict (extractAll docs).unknown).map
        (fun p => p.2.length)).sum) ++
        " facilities use country values that could not be mapped to ISO-3166")
      "warning" none none none none none
      (some "Standardize country inputs (e.g., use ISO alpha-2 codes or consistent names)")
      (some (((buildMultiDict (extractAll docs).unknown).map (·.1)).take 8)))
      ∈ (consolidate docs).issues := by
    rw [consolidate_issues_eq]
    unfold compileQualityIssues
    refine List.mem_append_right _ (List.mem_append_left _
      (List.mem_append_left _ (List.mem_append_left _
        (List.mem_append_right _ ?_))))
    rw [if_neg hne]
    exact List.mem_singleton.mpr rfl
  refine ⟨_, hmem, rfl, rfl, ?_⟩
  show (if (((buildMultiDict (extractAll docs).unknown).map
      (·.1)).take 8).isEmpty = true then none
    else some (((buildMultiDict (extractAll docs).unknown).map (·.1)).take 8)) =
    some (((buildMultiDict (extractAll docs).unknown).map (·.1)).take 8)
  rw [if_neg hlistb]

end OrgBoundary

namespace OrgBoundary

/-- C7, counterexample: at a row with entity `"Acme Plant"` and country
`"Atlantis"`, the `country_normalization` issue's details list the raw
country value, not the affected entity's name — the claim's "recorded with
the affected entity names" is false as stated. -/
theorem claim_C7_counterexample :
    ((consolidate [atlantisDoc]).issues.filter
      (fun i => i.code == "country_normalization")).map (fun i => i.details) =
      [some ["Atlantis"]] ∧
    (consolidate [atlantisDoc]).entities.map (fun e => e.name) = ["Acme Plant"] ∧
    ¬ ("Acme Plant" ∈ (["Atlantis"] : List String)) := by
  refine ⟨by decide, by decide, by decide⟩

/-- C7 (amended): a row whose raw country normalizes to a code different from
its upper-cased raw value contributes an info-severity
`country_standardization` issue and an unmappable one a warning-severity
`country_normalization` issue, each recorded with the distinct *raw country
values* (not entity names), capped to a preview of the first 8; concretely,
`"United States of America"` yields `country_code = "US"` plus a
`country_standardization` issue naming the raw label, and `"Atlantis"` yields
`country_code = None` plus a `country_normalization` warning listing
`"Atlantis"`. -/
theorem claim_C7 (docs : List ParsedDoc) :
    ((extractAll docs).nonIso ≠ [] →
      ∃ i ∈ (consolidate docs).issues, i.code = "country_standardization" ∧
        i.severity = "info" ∧ i.details =
          some (((buildMultiDict (extractAll docs).nonIso).map (·.1)).take 8)) ∧
    ((extractAll docs).unknown ≠ [] →
      ∃ i ∈ (consolidate docs).issues, i.code = "country_normalization" ∧
        i.severity = "warning" ∧ i.details =
          some (((buildMultiDict (extractAll docs).unknown).map (·.1)).take 8)) ∧
    (∃ e ∈ (consolidate [usaDoc]).entities, e.country_code = some "US") ∧
    (∃ i ∈ (consolidate [usaDoc]).issues, i.code = "country_standardization" ∧
      i.severity = "info" ∧ i.details = some ["United States of America"]) ∧
    (∃ e ∈ (consolidate [atlantisDoc]).entities, e.country_code = none) ∧
    (∃ i ∈ (consolidate [atlantisDoc]).issues, i.code = "country_normalization" ∧
      i.severity = "warning" ∧ i.details = some ["Atlantis"]) :=
  ⟨noniso_issue_present docs, unknown_issue_present docs,
   by decide, by decide, by decide, by decide⟩

/-- C7, witness: both country-issue implications at a concrete two-document
input containing one verbose label and one unmappable label. -/
theorem claim_C7_witness :
    (∃ i ∈ (consolidate [usaDoc, atlantisDoc]).issues,
      i.code = "country_standardization" ∧ i.severity = "info" ∧
      i.details = some (((buildMultiDict
        (extractAll [usaDoc, atlantisDoc]).nonIso).map (·.1)).take 8)) ∧
    (∃ i ∈ (consolidate [usaDoc, atlantisDoc]).issues,
      i.code = "country_normalization" ∧ i.severity = "warning" ∧
      i.details = some (((buildMultiDict
        (extractAll [usaDoc, atlantisDoc]).unknown).map (·.1)).take 8)) :=
  ⟨(claim_C7 [usaDoc, atlantisDoc]).1 (by decide),
   (claim_C7 [usaDoc, atlantisDoc]).2.1 (by decide)⟩

end OrgBoundary

namespace OrgBoundary

/-- The single entity record extracted from `nameOnlyDoc p name`. -/
def nameOnlyEntity (p name : String) : Entity :=
  { entity_id := mkEntityId name
    entity_identifier := none
    name := name
    display_name := deriveDisplayName name none none
    type_ := pyOr (inferTypeFromName name) "Unknown"
    region := none
    country_raw := none
    country_code := none
    business_unit := none
    division := none
    facility_type := inferTypeFromName name
    parent_id := none
    parent_name := none
    source_file := basename p
    source_sheet := "Sheet1"
    source_row := 2
    confidence := 85
    is_user_verified := false }

/-- The row contribution extracted from `nameOnlyDoc p name`. -/
def nameOnlyRowOut (p name : String) : RowOut :=
  { entity := nameOnlyEntity p name
    missId := some (name, 2)
    unknownPair := none
    nonIsoPair := none
    missRegion := some name
    missType := if truthy (inferTypeFromName name) = true then none
      else some name }

theorem fetchValue_nameOnly (name : String) (hstrip : pyStrip name = name)
    (hsent : pyLower name ∉ EMPTY_SENTINELS) :
    fetchValue [("Entity Name", some name)] (some "Entity Name") = some name := by
  show (if pyLower (pyStrip name) ∈ EMPTY_SENTINELS then none
    else some (pyStrip name)) = some name
  rw [hstrip, if_neg hsent]

theorem extractRow_nameOnly (p name : String) (hstrip : pyStrip name = name)
    (hsent : pyLower name ∉ EMPTY_SENTINELS) :
    extractRow ["Entity Name"]
      { idCol := none, nameCol := "Entity Name", parentIdCol := none,
        parentNameCol := none, regionCol := none, countryCol := none,
        typeCol := none, businessUnitCol := none }
      (basename p) "Sheet1" 0 [("Entity Name", some name)] =
      some (nameOnlyRowOut p name) := by
  unfold extractRow
  rw [fetchValue_nameOnly name hstrip hsent]
  rfl

theorem processDoc_nameOnly_entities (p name : String)
    (hstrip : pyStrip name = name) (hsent : pyLower name ∉ EMPTY_SENTINELS) :
    (processDoc (nameOnlyDoc p name)).entities = [nameOnlyEntity p name] := by
  show ((List.filterMap
      (fun pr => extractRow ["Entity Name"]
        { idCol := none, nameCol := "Entity Name", parentIdCol := none,
          parentNameCol := none, regionCol := none, countryCol := none,
          typeCol := none, businessUnitCol := none }
        (basename p) "Sheet1" pr.1 pr.2)
      [(0, [("Entity Name", some name)])]).map (fun ro => ro.entity)) =
    [nameOnlyEntity p name]
  simp only [List.filterMap_cons, List.filterMap_nil,
    extractRow_nameOnly p name hstrip hsent, List.map_cons, List.map_nil]
  rfl

end OrgBoundary

namespace OrgBoundary

/-- C1, counterexample: at the Scenario-A input (two documents, each with one
`"Acme Corp"` row and no identifier column) exactly one entity survives, but
the synthesized colliding ids *are* flagged — a `duplicate_entity_id` issue
is present, so "no duplicate_entity_id issue appears" is false as stated. -/
theorem claim_C1_counterexample :
    (consolidate [acmeDocA, acmeDocB]).entities.length = 1 ∧
    ((consolidate [acmeDocA, acmeDocB]).issues.filter
      (fun i => i.code == "duplicate_entity_id")).length = 1 := by
  refine ⟨by decide, by decide⟩

/-- C1 (amended): when two documents each contain a row with the same entity
name and no explicit identifier, the two rows synthesize the same
`entity_id`, exactly one entity survives pass one — and the collision *is*
reported as a `duplicate_entity_id` issue (it is not silent). -/
theorem claim_C1 (name p q : String) (hstrip : pyStrip name = name)
    (hne : name ≠ "") (hsent : pyLower name ∉ EMPTY_SENTINELS) :
    (consolidate [nameOnlyDoc p name, nameOnlyDoc q name]).entities.length = 1 ∧
    ∃ i ∈ (consolidate [nameOnlyDoc p name, nameOnlyDoc q name]).issues,
      i.code = "duplicate_entity_id" := by
  have hent : (extractAll [nameOnlyDoc p name, nameOnlyDoc q name]).entities =
      [nameOnlyEntity p name, nameOnlyEntity q name] := by
    show (processDoc (nameOnlyDoc p name)).entities ++
      ((processDoc (nameOnlyDoc q name)).entities ++ []) = _
    rw [processDoc_nameOnly_entities p name hstrip hsent,
      processDoc_nameOnly_entities q name hstrip hsent]
    rfl
  have hded : dedupGo []
      [nameOnlyEntity p name, nameOnlyEntity q name] =
      ([nameOnlyEntity p name], [(mkEntityId name, basename q)]) := by
    unfold dedupGo
    rw [if_neg (List.not_mem_nil (dedupKey (nameOnlyEntity p name)))]
    unfold dedupGo
    dsimp only
    have hkmem : dedupKey (nameOnlyEntity q name) ∈
        [dedupKey (nameOnlyEntity p name)] := List.mem_singleton.mpr rfl
    rw [if_pos hkmem]
    rfl
  constructor
  · rw [consolidate_entities_eq, hent, hded]
    rfl
  · have hdup : (dedupGo []
        (extractAll [nameOnlyDoc p name, nameOnlyDoc q name]).entities).2 ≠ [] := by
      rw [hent, hded]
      simp
    obtain ⟨i, hi, hc, _⟩ :=
      dup_issue_present [nameOnlyDoc p name, nameOnlyDoc q name] hdup
    exact ⟨i, hi, hc⟩

/-- C1, witness: the amended claim at `"Acme Corp"` with paths `a.csv` and
`b.csv`. -/
theorem claim_C1_witness :
    (consolidate [nameOnlyDoc "a.csv" "Acme Corp",
      nameOnlyDoc "b.csv" "Acme Corp"]).entities.length = 1 ∧
    ∃ i ∈ (consolidate [nameOnlyDoc "a.csv" "Acme Corp",
      nameOnlyDoc "b.csv" "Acme Corp"]).issues,
      i.code = "duplicate_entity_id" :=
  claim_C1 "Acme Corp" "a.csv" "b.csv" (by decide) (by decide) (by decide)

end OrgBoundary
